import Mathlib

/-!
Shallow embedding of the Amex-Wrapped statement parsing and aggregation
pipeline (`src/lib/csv-parser.ts` and `src/lib/stats.ts`), together with
proofs settling the specification claims about it.

JavaScript numbers are modelled as exact rationals (`ℚ`); IEEE-754 rounding
of decimal literals is not modelled, which is exact for the integer- and
dyadic-valued inputs appearing in the concrete theorems below.  JavaScript
`Date` objects are modelled as an optional day number (days since
1970-01-01, proleptic Gregorian, as in ECMAScript's `MakeDay`); `none`
stands for an Invalid Date.  JavaScript strings are Lean `String`s
(sequences of characters); the handful of Unicode-sensitive operations
(`trim`, `toLowerCase`, `\s`) are modelled on the character sets actually
exercised by the data (ASCII plus NBSP).
-/

namespace AmexWrapped

/-- Whitespace for the model of JavaScript trimming and of `\s`
(ASCII whitespace plus NBSP; sufficient for the statement data). -/
def isJsSpace (c : Char) : Bool :=
  c = ' ' || c = '\t' || c = '\n' || c = '\r' || c = '\x0b' || c = '\x0c' || c = '\u00A0'

/-- Model of `String.prototype.trim` on character lists. -/
def jsTrimList (l : List Char) : List Char :=
  ((l.dropWhile isJsSpace).reverse.dropWhile isJsSpace).reverse

/-- Model of `String.prototype.trim`. -/
def jsTrim (s : String) : String := ⟨jsTrimList s.data⟩

/-- Model of `String.prototype.toLowerCase` (ASCII). -/
def jsToLower (s : String) : String := ⟨s.data.map Char.toLower⟩

/-- Decimal digit test (`\d`, and the digits of JS numeric literals). -/
def isDigitCh (c : Char) : Bool := '0' ≤ c && c ≤ '9'

/-- Word-character test (`\w` = `[A-Za-z0-9_]`). -/
def isWordChar (c : Char) : Bool :=
  ('a' ≤ c && c ≤ 'z') || ('A' ≤ c && c ≤ 'Z') || ('0' ≤ c && c ≤ '9') || c = '_'

/-- Model of `String.prototype.split` with a single-character separator.
`splitCharList sep l` never returns `[]` (splitting the empty string gives
`[[]]`), matching JavaScript. -/
def splitCharList (sep : Char) : List Char → List (List Char)
  | [] => [[]]
  | c :: rest =>
    match splitCharList sep rest with
    | [] => [[]]
    | p :: ps => if c = sep then [] :: p :: ps else (c :: p) :: ps

/-- Little-endian decimal digits of a natural number (`natDigitsAux` is
fuel-indexed to stay structurally recursive; `fuel = n` always suffices). -/
def natDigitsAux : Nat → Nat → List Nat
  | 0, _ => []
  | _ + 1, 0 => []
  | fuel + 1, n + 1 => ((n + 1) % 10) :: natDigitsAux fuel ((n + 1) / 10)

/-- Little-endian decimal digits of a natural number. -/
def natDigits (n : Nat) : List Nat := natDigitsAux n n

/-- The character of a decimal digit. -/
def digitChar (d : Nat) : Char := Char.ofNat (48 + d)

/-- Decimal rendering of a natural number, as produced by JavaScript string
interpolation of a non-negative integer. -/
def natChars (n : Nat) : List Char :=
  if n = 0 then ['0'] else ((natDigits n).reverse.map digitChar)

/-- Decimal rendering of an integer, as produced by JavaScript string
interpolation. -/
def intChars (i : Int) : List Char :=
  if i < 0 then '-' :: natChars i.natAbs else natChars i.natAbs

/-- Value of a big-endian list of decimal digit characters. -/
def digitsValNat (l : List Char) : Nat := l.foldl (fun a c => a * 10 + (c.toNat - 48)) 0

/-- Model of `parseInt(s, 10)`: skip leading whitespace, optional sign, then
the longest prefix of decimal digits; `none` (NaN) when there is none.
Trailing garbage is ignored, as in JavaScript. -/
def jsParseInt (s : String) : Option Int :=
  let core : List Char → Option Int := fun l =>
    let d := l.takeWhile isDigitCh
    if d = [] then none else some (digitsValNat d)
  match s.data.dropWhile isJsSpace with
  | '-' :: r => (core r).map Neg.neg
  | '+' :: r => core r
  | l => core l

/-- Exponent part of a JS numeric literal after the `e`: optional sign and a
non-empty digit string consuming the whole remainder. -/
def expPartVal : List Char → Option Int
  | [] => none
  | '+' :: r => if r ≠ [] ∧ r.all isDigitCh then some (digitsValNat r) else none
  | '-' :: r => if r ≠ [] ∧ r.all isDigitCh then some (-(digitsValNat r : Int)) else none
  | l => if l.all isDigitCh then some (digitsValNat l) else none

/-- Unsigned decimal literal of `Number(...)`: `digits [. digits] [exp]` or
`. digits [exp]`, consuming the entire input. -/
def parseDecCore (l : List Char) : Option ℚ :=
  let ip := l.takeWhile isDigitCh
  let r1 := l.drop ip.length
  match r1 with
  | '.' :: r2 =>
    let fp := r2.takeWhile isDigitCh
    let r3 := r2.drop fp.length
    if ip = [] ∧ fp = [] then none
    else
      let base : ℚ := (digitsValNat ip : ℚ) + (digitsValNat fp : ℚ) / (10 : ℚ) ^ fp.length
      match r3 with
      | [] => some base
      | 'e' :: r4 => (expPartVal r4).map (fun e => base * (10 : ℚ) ^ e)
      | 'E' :: r4 => (expPartVal r4).map (fun e => base * (10 : ℚ) ^ e)
      | _ => none
  | _ =>
    if ip = [] then none
    else
      let base : ℚ := (digitsValNat ip : ℚ)
      match r1 with
      | [] => some base
      | 'e' :: r4 => (expPartVal r4).map (fun e => base * (10 : ℚ) ^ e)
      | 'E' :: r4 => (expPartVal r4).map (fun e => base * (10 : ℚ) ^ e)
      | _ => none

/-- Hexadecimal digit decoder. -/
def hexDigitVal (c : Char) : Option Nat :=
  if '0' ≤ c ∧ c ≤ '9' then some (c.toNat - 48)
  else if 'a' ≤ c ∧ c ≤ 'f' then some (c.toNat - 87)
  else if 'A' ≤ c ∧ c ≤ 'F' then some (c.toNat - 55)
  else none

/-- Model of `Number(string)` on character lists (ECMAScript
`StringToNumber`), producing an exact rational.  The whole (trimmed) string
must be a numeric literal; the empty string is `0`; `none` is NaN.
Non-finite results (`Infinity` literals) are also mapped to `none`: the only
consumer in the source is the `Date` constructor, for which a non-finite
argument and NaN produce the same Invalid Date. -/
def jsNumberList (l : List Char) : Option ℚ :=
  let radix : Nat → (Char → Option Nat) → List Char → Option ℚ := fun b dec r =>
    if r = [] then none
    else (r.foldl (fun a c => match a, dec c with
      | some a, some d => some (a * b + d)
      | _, _ => none) (some 0)).map (fun n => (n : ℚ))
  match jsTrimList l with
  | [] => some 0
  | '+' :: r => parseDecCore r
  | '-' :: r => (parseDecCore r).map Neg.neg
  | '0' :: 'x' :: r => radix 16 hexDigitVal r
  | '0' :: 'X' :: r => radix 16 hexDigitVal r
  | '0' :: 'o' :: r => radix 8 (fun c => if '0' ≤ c ∧ c ≤ '7' then some (c.toNat - 48) else none) r
  | '0' :: 'O' :: r => radix 8 (fun c => if '0' ≤ c ∧ c ≤ '7' then some (c.toNat - 48) else none) r
  | '0' :: 'b' :: r => radix 2 (fun c => if c = '0' then some 0 else if c = '1' then some 1 else none) r
  | '0' :: 'B' :: r => radix 2 (fun c => if c = '0' then some 0 else if c = '1' then some 1 else none) r
  | t => parseDecCore t

/-- Model of `Number(string)`. -/
def jsNumber (s : String) : Option ℚ := jsNumberList s.data

/-- Exponent of a `parseFloat` literal: best-effort prefix after the `e`
(`0` when the exponent part is not well formed, in which case JavaScript
ignores it). -/
def expPrefixVal (l : List Char) : Int :=
  match l with
  | '+' :: r => (digitsValNat (r.takeWhile isDigitCh) : Int)
  | '-' :: r => if r.takeWhile isDigitCh = [] then 0 else -(digitsValNat (r.takeWhile isDigitCh) : Int)
  | r => (digitsValNat (r.takeWhile isDigitCh) : Int)

/-- Unsigned part of `parseFloat`: longest valid decimal-literal prefix. -/
def parseFloatCore (l : List Char) : Option ℚ :=
  let ip := l.takeWhile isDigitCh
  let r1 := l.drop ip.length
  let fr : List Char × List Char :=
    match r1 with
    | '.' :: r => (r.takeWhile isDigitCh, r.drop (r.takeWhile isDigitCh).length)
    | _ => ([], r1)
  if ip = [] ∧ fr.1 = [] then none
  else
    let base : ℚ := (digitsValNat ip : ℚ) + (digitsValNat fr.1 : ℚ) / (10 : ℚ) ^ fr.1.length
    let e : Int :=
      match fr.2 with
      | 'e' :: r3 => expPrefixVal r3
      | 'E' :: r3 => expPrefixVal r3
      | _ => 0
    some (base * (10 : ℚ) ^ e)

/-- Model of `parseFloat(string)`: skip leading whitespace, optional sign,
then the longest valid decimal-literal prefix; `none` is NaN.  (`Infinity`
prefixes are mapped to `none`; every use in the source immediately replaces
a non-finite or NaN amount via `|| 0`.) -/
def jsParseFloat (s : String) : Option ℚ :=
  match s.data.dropWhile isJsSpace with
  | '-' :: r => (parseFloatCore r).map Neg.neg
  | '+' :: r => parseFloatCore r
  | l => parseFloatCore l

/-- Model of `Math.round`: nearest integer, halves toward positive
infinity. -/
def jsRound (q : ℚ) : ℤ := ⌊q + 1 / 2⌋

/-- Model of `Math.round(x * 100) / 100`, the 2-decimal rounding used
throughout the aggregation engine. -/
def round2 (q : ℚ) : ℚ := (jsRound (q * 100) : ℚ) / 100

/-- Model of `Math.round(x * 1000) / 10`, the 1-decimal percentage rounding
applied to a ratio `x`. -/
def roundPct (q : ℚ) : ℚ := (jsRound (q * 1000) : ℚ) / 10

/-- ECMAScript `ToIntegerOrInfinity` on a finite value: truncation toward
zero. -/
def jsTrunc (q : ℚ) : Int := if q < 0 then -⌊-q⌋ else ⌊q⌋

/-- Day number (days since 1970-01-01) of the first day of civil month
`m ∈ [1,12]` of year `y`, proleptic Gregorian — the `days_from_civil`
algorithm, which agrees with ECMAScript `MakeDay`. -/
def daysFromCivilMonth1 (y m : Int) : Int :=
  let y' := if m ≤ 2 then y - 1 else y
  let era := Int.fdiv y' 400
  let yoe := y' - era * 400
  let mp := Int.emod (m + 9) 12
  let doy := Int.fdiv (153 * mp + 2) 5
  let doe := yoe * 365 + Int.fdiv yoe 4 - Int.fdiv yoe 100 + doy
  era * 146097 + doe - 719468

/-- Civil date `(year, month ∈ [1,12], day)` of a day number — the
`civil_from_days` inverse algorithm. -/
def civilFromDays (z : Int) : Int × Int × Int :=
  let z' := z + 719468
  let era := Int.fdiv z' 146097
  let doe := z' - era * 146097
  let yoe := Int.fdiv (doe - Int.fdiv doe 1460 + Int.fdiv doe 36524 - Int.fdiv doe 146096) 365
  let y := yoe + era * 400
  let doy := doe - (365 * yoe + Int.fdiv yoe 4 - Int.fdiv yoe 100)
  let mp := Int.fdiv (5 * doy + 2) 153
  let d := doy - Int.fdiv (153 * mp + 2) 5 + 1
  let m := mp + (if mp < 10 then 3 else -9)
  (y + (if m ≤ 2 then 1 else 0), m, d)

/-- Day number produced by the out-of-range roll-over of
`new Date(year, month, day)` (ECMAScript `MakeDay`), before range clipping:
excess months roll into the year, and the day count is added as an offset. -/
def rolledDays (yi mi di : Int) : Int :=
  let yr := if 0 ≤ yi ∧ yi ≤ 99 then 1900 + yi else yi
  let ym := yr + Int.fdiv mi 12
  let mn := Int.emod mi 12
  daysFromCivilMonth1 ym (mn + 1) + (di - 1)

/-- Model of `new Date(year, month, day)` on integer arguments: the
two-digit-year rule (`0..99 ↦ 1900+y`), `MakeDay` roll-over, and the
`TimeClip` range check (`|ms| ≤ 8.64e15`, i.e. at most 100 000 000 days from
the epoch).  `none` is an Invalid Date. -/
def jsMakeDate (yi mi di : Int) : Option Int :=
  if (rolledDays yi mi di).natAbs ≤ 100000000 then some (rolledDays yi mi di) else none

/-- Model of `new Date(y, m, d)` on JS-number arguments: NaN anywhere gives
an Invalid Date, otherwise each argument is truncated toward zero. -/
def jsNewDate (y m d : Option ℚ) : Option Int :=
  match y, m, d with
  | some y, some m, some d => jsMakeDate (jsTrunc y) (jsTrunc m) (jsTrunc d)
  | _, _, _ => none

/-- Model of `Date.prototype.getFullYear` on a valid date. -/
def dateYear (d : Int) : Int := (civilFromDays d).1

/-- Model of `Date.prototype.getMonth` (0-based) on a valid date. -/
def dateMonth0 (d : Int) : Int := (civilFromDays d).2.1 - 1

/-! ### Statement parser (`src/lib/csv-parser.ts`) -/

/-- Detected CSV format type (`AmexFormat`). -/
inductive AmexFormat
  | uk
  | mexico
deriving DecidableEq

/-- Foreign-currency detail attached to a transaction
(`ForeignCurrencyInfo`). -/
structure ForeignCurrencyInfo where
  foreignAmount : ℚ
  currency : String
  currencyCode : String
  commission : ℚ
  exchangeRate : ℚ
deriving DecidableEq

/-- One raw statement row after projection to the typed shape
(`AmexTransaction`).  The `amount` field is already numeric here: in the
source, `parseAmexCSV` always populates it with `parseFloat(...) || 0`
before `transformTransaction` runs (the string branch of the
`typeof raw.amount` check is subsumed by that projection). -/
structure AmexTransaction where
  date : String
  description : String
  amount : ℚ
  extendedDetails : String
  appearsOnStatement : String
  address : String
  townCity : String
  postcode : String
  country : String
  reference : String
  category : String
deriving DecidableEq

/-- Enriched transaction (`Transaction`). -/
structure Transaction extends AmexTransaction where
  id : String
  parsedDate : Option Int
  absoluteAmount : ℚ
  isRefund : Bool
  isPayment : Bool
  mainCategory : String
  subCategory : String
  merchantName : String
  foreignCurrency : Option ForeignCurrencyInfo
deriving DecidableEq

/-- Model of `parseUKDate`: split on `/`, coerce each of the first three
fields with `Number` (a missing field is `undefined`, hence NaN), and build
`new Date(year, month - 1, day)`. -/
def parseUKDate (dateStr : String) : Option Int :=
  let parts := splitCharList '/' dateStr.data
  let num : Nat → Option ℚ := fun i =>
    match parts.get? i with
    | some f => jsNumberList f
    | none => none
  jsNewDate (num 2) ((num 1).map (fun m => m - 1)) (num 0)

/-- Month-name table of `parseMexicoDate`. -/
def monthIndex (s : String) : Option Int :=
  if s = "Jan" then some 0 else if s = "Feb" then some 1
  else if s = "Mar" then some 2 else if s = "Apr" then some 3
  else if s = "May" then some 4 else if s = "Jun" then some 5
  else if s = "Jul" then some 6 else if s = "Aug" then some 7
  else if s = "Sep" then some 8 else if s = "Oct" then some 9
  else if s = "Nov" then some 10 else if s = "Dec" then some 11
  else none

/-- Model of `parseMexicoDate` ("DD MMM YYYY", e.g. "29 Dec 2025"). -/
def parseMexicoDate (dateStr : String) : Option Int :=
  match splitCharList ' ' (jsTrimList dateStr.data) with
  | [p0, p1, p2] =>
    match jsParseInt ⟨p0⟩, monthIndex ⟨p1⟩, jsParseInt ⟨p2⟩ with
    | some day, some month, some year => jsMakeDate year month day
    | _, _, _ => none
  | _ => none

/-- Model of `detectAmexFormat`: header sets decide the dialect. -/
def detectAmexFormat (headers : List String) : Option AmexFormat :=
  let normalizedHeaders := headers.map (fun h => jsToLower (jsTrim h))
  if normalizedHeaders.contains "date" && normalizedHeaders.contains "category" then
    some AmexFormat.uk
  else if normalizedHeaders.contains "fecha" && normalizedHeaders.contains "importe" then
    some AmexFormat.mexico
  else none

/-- The prefix of a description before the first run of two or more
whitespace characters (`description.split(/\s{2,}/)[0]`). -/
def beforeDoubleSpace : List Char → List Char
  | [] => []
  | [c] => [c]
  | c1 :: c2 :: rest =>
    if isJsSpace c1 && isJsSpace c2 then []
    else c1 :: beforeDoubleSpace (c2 :: rest)

/-- Model of `.replace(/\*[\w\d]+$/, '')`: strip a trailing `*reference`
suffix. -/
def stripStarRef (l : List Char) : List Char :=
  let r := l.reverse
  let w := r.takeWhile isWordChar
  match w, r.drop w.length with
  | _ :: _, '*' :: rest => rest.reverse
  | _, _ => l

/-- Model of `.replace(/^PAT/, repl)` for a literal pattern `PAT`. -/
def replaceLiteralStart (pat repl l : List Char) : List Char :=
  if pat.isPrefixOf l then repl ++ l.drop pat.length else l

/-- Model of `.replace(/\d+$/, '')`: strip trailing digits. -/
def stripTrailingDigits (l : List Char) : List Char :=
  (l.reverse.dropWhile isDigitCh).reverse

/-- Model of `extractMerchantName`. -/
def extractMerchantName (description : String) : String :=
  let name := jsTrimList (stripStarRef (beforeDoubleSpace description.data))
  let name := jsTrimList (stripTrailingDigits
    (replaceLiteralStart "SP ".data [] (replaceLiteralStart "PADDLE.NET*".data []
      (replaceLiteralStart "AMAZON.CO.UK".data "Amazon".data
        (replaceLiteralStart "AMZNMKTPLACE".data "Amazon Marketplace".data name)))))
  if name = [] then description else ⟨name⟩

/-- Model of `parseMainCategory`: first `-`-separated part, trimmed,
defaulting to "Other" when blank. -/
def parseMainCategory (category : String) : String :=
  match (splitCharList '-' category.data).get? 0 with
  | some p => let t := jsTrimList p; if t = [] then "Other" else ⟨t⟩
  | none => "Other"

/-- Model of `parseSubCategory`: second `-`-separated part, trimmed,
defaulting to the empty string. -/
def parseSubCategory (category : String) : String :=
  match (splitCharList '-' category.data).get? 1 with
  | some p => ⟨jsTrimList p⟩
  | none => ""

/-- Model of `isPaymentTransaction`: the fixed anchored, case-insensitive
payment-acknowledgement patterns. -/
def isPaymentTransaction (description : String) : Bool :=
  let d := description.data.map Char.toUpper
  "PAYMENT RECEIVED".data.isPrefixOf d ||
  "PAYMENT - THANK YOU".data.isPrefixOf d ||
  "DIRECT DEBIT PAYMENT".data.isPrefixOf d ||
  "GRACIAS POR SU PAGO".data.isPrefixOf d

/-- Model of `generateId`: the reference with single quotes stripped when
present (JS truthiness: non-empty), otherwise `date + "-" + index`. -/
def generateId (transaction : AmexTransaction) (index : Nat) : String :=
  if transaction.reference ≠ "" then
    ⟨transaction.reference.data.filter (fun c => c ≠ '\'')⟩
  else
    ⟨transaction.date.data ++ '-' :: natChars index⟩

/-- Substring test (`String.prototype.includes`, case-sensitive). -/
def listContainsSub (l pat : List Char) : Bool :=
  match l with
  | [] => pat = []
  | _ :: t => pat.isPrefixOf l || listContainsSub t pat

/-- Guard of `parseForeignCurrency`: extraction is only attempted when the
extended-details blob contains the literal marker.  The regex-driven
extraction itself (`extract`) is a parameter of the embedding: no claim
constrains its output, and every claim below is proved for an arbitrary
extraction function. -/
def parseForeignCurrency (extract : String → Option ForeignCurrencyInfo)
    (extendedDetails : String) : Option ForeignCurrencyInfo :=
  if extendedDetails = "" ∨ ¬listContainsSub extendedDetails.data "Foreign Spend Amount:".data then
    none
  else extract extendedDetails

/-- Model of `transformTransaction` (Dialect A enrichment).  `extract` is the
abstracted foreign-currency extraction (see `parseForeignCurrency`). -/
def transformTransaction (extract : String → Option ForeignCurrencyInfo)
    (raw : AmexTransaction) (index : Nat) : Transaction :=
  let isPayment := isPaymentTransaction raw.description
  { toAmexTransaction := raw
    id := generateId raw index
    parsedDate := parseUKDate raw.date
    absoluteAmount := |raw.amount|
    isRefund := decide (raw.amount < 0) && !isPayment
    isPayment := isPayment
    mainCategory := parseMainCategory raw.category
    subCategory := parseSubCategory raw.category
    merchantName := extractMerchantName raw.description
    foreignCurrency := parseForeignCurrency extract raw.extendedDetails }

/-- Lookup in a dynamically-shaped CSV row object (`row['Key']`). -/
def jsGetField (row : List (String × String)) (k : String) : Option String :=
  match row with
  | [] => none
  | p :: rest => if p.1 = k then some p.2 else jsGetField rest k

/-- JavaScript `a || b` on an optional string: `undefined` and the empty
string both fall through to the default. -/
def jsOrStr (a : Option String) (b : String) : String :=
  match a with
  | some s => if s ≠ "" then s else b
  | none => b

/-- Model of `transformMexicoTransaction` (Dialect B enrichment).  `autoCat`
is the abstracted keyword auto-categorizer `autoCategorizeMerchant`: no claim
constrains its output, and every claim below is proved for an arbitrary
categorizer. -/
def transformMexicoTransaction (autoCat : String → String)
    (row : List (String × String)) (index : Nat) : Transaction :=
  let dateStr := jsOrStr (jsGetField row "Fecha") (jsOrStr (jsGetField row "Fecha de Compra") "")
  let description := jsOrStr (jsGetField row "Descripción") ""
  let amount := (match jsGetField row "Importe" with
    | some s => (jsParseFloat s).getD 0
    | none => 0)
  let isPayment := isPaymentTransaction description
  let category := autoCat description
  let rawTransaction : AmexTransaction :=
    { date := dateStr
      description := description
      amount := amount
      extendedDetails := ""
      appearsOnStatement := description
      address := ""
      townCity := ""
      postcode := ""
      country := "Mexico"
      reference := ⟨"MX-".data ++ natChars index⟩
      category := category }
  { toAmexTransaction := rawTransaction
    id := ⟨"MX-".data ++ natChars index⟩
    parsedDate := parseMexicoDate dateStr
    absoluteAmount := |amount|
    isRefund := decide (amount < 0) && !isPayment
    isPayment := isPayment
    mainCategory := parseMainCategory category
    subCategory := parseSubCategory category
    merchantName := extractMerchantName description
    foreignCurrency := none }

/-- One error reported by the CSV layer (PapaParse). -/
structure PapaError where
  errType : String
  message : String
deriving DecidableEq

/-- Structured output of the CSV layer (PapaParse with `header: true`,
`skipEmptyLines: true` and header trimming): the reported errors, the
(trimmed) header fields, and the data rows as key/value maps. -/
structure PapaResults where
  errors : List PapaError
  fields : List String
  rows : List (List (String × String))

/-- Result of parsing with detected format info (`ParseResult`). -/
structure ParseResult where
  transactions : List Transaction
  format : AmexFormat
  currency : String
  currencyLocale : String
deriving DecidableEq

/-- Projection of a Dialect A row to the typed raw shape, with the per-field
defaults of `parseAmexCSV`. -/
def ukRowToRaw (row : List (String × String)) : AmexTransaction :=
  { date := jsOrStr (jsGetField row "Date") ""
    description := jsOrStr (jsGetField row "Description") ""
    amount := (match jsGetField row "Amount" with
      | some s => (jsParseFloat s).getD 0
      | none => 0)
    extendedDetails := jsOrStr (jsGetField row "Extended Details") ""
    appearsOnStatement := jsOrStr (jsGetField row "Appears On Your Statement As") ""
    address := jsOrStr (jsGetField row "Address") ""
    townCity := jsOrStr (jsGetField row "Town/City") ""
    postcode := jsOrStr (jsGetField row "Postcode") ""
    country := jsOrStr (jsGetField row "Country") ""
    reference := jsOrStr (jsGetField row "Reference") ""
    category := jsOrStr (jsGetField row "Category") "Other" }

/-- The per-row retention filter of `parseAmexCSV`:
`t.date && !isNaN(t.parsedDate.getTime())`. -/
def retainRow (t : Transaction) : Bool :=
  t.date ≠ "" && t.parsedDate.isSome

/-- Model of `parseAmexCSV` from the `complete` callback onward, acting on
the structured CSV-layer output (the `Promise` is modelled as `Except`:
`.error` is a rejection).  A critical "Quotes" error rejects; an
unrecognized header set rejects; otherwise the rows are projected,
enriched and filtered per the detected dialect. -/
def parseAmexCSV (extract : String → Option ForeignCurrencyInfo)
    (autoCat : String → String) (results : PapaResults) : Except String ParseResult :=
  match results.errors.filter (fun e => e.errType = "Quotes") with
  | e :: _ => Except.error ("CSV parsing error: " ++ e.message)
  | [] =>
    match detectAmexFormat results.fields with
    | none =>
      Except.error "Unrecognized CSV format. Please upload an Amex UK or Mexico statement."
    | some AmexFormat.mexico =>
      Except.ok
        { transactions :=
            ((results.rows.enum.map (fun p => transformMexicoTransaction autoCat p.2 p.1)).filter
              retainRow)
          format := AmexFormat.mexico
          currency := "MXN"
          currencyLocale := "es-MX" }
    | some AmexFormat.uk =>
      Except.ok
        { transactions :=
            ((results.rows.enum.map (fun p => transformTransaction extract (ukRowToRaw p.2) p.1)).filter
              retainRow)
          format := AmexFormat.uk
          currency := "GBP"
          currencyLocale := "en-GB" }

/-! ### Aggregation engine (`src/lib/stats.ts`) -/

/-- Stable insertion of an element into a list: `a` goes before the first
element `b` with `le a b`.  Used to model `Array.prototype.sort`, which is
required to be stable. -/
def insertLe {α : Type} (le : α → α → Bool) (a : α) : List α → List α
  | [] => [a]
  | b :: l => if le a b then a :: b :: l else b :: insertLe le a l

/-- Stable sort modelling `Array.prototype.sort(cmp)`; `le a b` means
`cmp(a, b) ≤ 0`.  Any stable sort produces the same output for a consistent
comparator, so the choice of algorithm is immaterial. -/
def stableSort {α : Type} (le : α → α → Bool) : List α → List α
  | [] => []
  | a :: l => insertLe le a (stableSort le l)

/-- Code-unit lexicographic string comparison, modelling
`a.localeCompare(b) ≤ 0` on the month keys produced below (ICU collation
agrees with code-unit order whenever the first difference is a
digit-against-digit comparison, which is the case for these keys). -/
def lexLeChars : List Char → List Char → Bool
  | [], _ => true
  | _ :: _, [] => false
  | a :: as, b :: bs => if a = b then lexLeChars as bs else decide (a < b)

/-- Lookup in a JavaScript `Map` with string keys (`map.get`). -/
def jsMapGet {V : Type} : List (String × V) → String → Option V
  | [], _ => none
  | p :: m, k => if p.1 = k then some p.2 else jsMapGet m k

/-- Update of a JavaScript `Map` (`map.set`): an existing key keeps its
insertion position; a new key is appended. -/
def jsMapSet {V : Type} : List (String × V) → String → V → List (String × V)
  | [], k, v => [(k, v)]
  | p :: m, k, v => if p.1 = k then (k, v) :: m else p :: jsMapSet m k v

/-- Signed net contribution of a non-payment transaction
(`t.isRefund ? -t.absoluteAmount : t.absoluteAmount`). -/
def signedNetAmount (t : Transaction) : ℚ :=
  if t.isRefund then -t.absoluteAmount else t.absoluteAmount

/-- The grouping loop shared verbatim by `calculateCategoryTotals` (keyed by
`t.mainCategory`) and `calculateMonthlySpending` (keyed by the month key of
`t.parsedDate`): skip payments, then accumulate the signed net amount and a
raw record count under the key. -/
def groupNetFold (key : Transaction → String) (transactions : List Transaction) :
    List (String × (ℚ × Nat)) :=
  transactions.foldl
    (fun m t =>
      if t.isPayment then m
      else
        let existing := (jsMapGet m (key t)).getD (0, 0)
        jsMapSet m (key t) (existing.1 + signedNetAmount t, existing.2 + 1))
    []

/-- Category total entry (`CategoryTotal`). -/
structure CategoryTotal where
  category : String
  total : ℚ
  count : Nat
  percentage : ℚ
deriving DecidableEq

/-- Merchant total entry (`MerchantTotal`). -/
structure MerchantTotal where
  merchantName : String
  total : ℚ
  count : Nat
  averageTransaction : ℚ
deriving DecidableEq

/-- Monthly spending entry (`MonthlySpending`). -/
structure MonthlySpending where
  month : String
  monthLabel : String
  total : ℚ
  count : Nat
deriving DecidableEq

/-- Model of `calculateCategoryTotals`: group non-payment transactions by
top-level category, round the zero-floored net totals to 2 decimals, attach
1-decimal percentages of the positive net mass, drop entries whose rounded
total is not positive, and sort by rounded total descending
(`(a, b) => b.total - a.total`, i.e. `a` precedes `b` iff
`b.total ≤ a.total`). -/
def calculateCategoryTotals (transactions : List Transaction) : List CategoryTotal :=
  let categoryMap := groupNetFold (fun t => t.mainCategory) transactions
  let totalNetSpent := (categoryMap.map (fun p => max 0 p.2.1)).sum
  stableSort (fun a b => decide (b.total ≤ a.total))
    ((categoryMap.map (fun p =>
      { category := p.1
        total := round2 (max 0 p.2.1)
        count := p.2.2
        percentage :=
          if totalNetSpent > 0 then roundPct (max 0 p.2.1 / totalNetSpent) else 0
        : CategoryTotal })).filter (fun c => decide (c.total > 0)))

/-- The grouping loop of `calculateMerchantTotals`: like `groupNetFold` but
the count field only counts charges (a refund does not increment it). -/
def merchantFold (transactions : List Transaction) : List (String × (ℚ × Nat)) :=
  transactions.foldl
    (fun m t =>
      if t.isPayment then m
      else
        let existing := (jsMapGet m t.merchantName).getD (0, 0)
        jsMapSet m t.merchantName
          (existing.1 + signedNetAmount t,
           if t.isRefund then existing.2 else existing.2 + 1))
    []

/-- Model of `calculateMerchantTotals`. -/
def calculateMerchantTotals (transactions : List Transaction) : List MerchantTotal :=
  let merchantMap := merchantFold transactions
  stableSort (fun a b => decide (b.total ≤ a.total))
    ((merchantMap.map (fun p =>
      { merchantName := p.1
        total := round2 (max 0 p.2.1)
        count := p.2.2
        averageTransaction :=
          if p.2.2 > 0 then round2 (max 0 p.2.1 / (p.2.2 : ℚ)) else 0
        : MerchantTotal })).filter (fun m => decide (m.total > 0)))

/-- Model of `getMonthKey`:
`${date.getFullYear()}-${String(date.getMonth() + 1).padStart(2, '0')}`.
An Invalid Date yields `"NaN-NaN"` (interpolating `NaN`). -/
def getMonthKey (pd : Option Int) : String :=
  match pd with
  | some d =>
    let monthPart := intChars (dateMonth0 d + 1)
    let monthPart := if monthPart.length < 2 then
        (List.replicate (2 - monthPart.length) '0') ++ monthPart
      else monthPart
    ⟨intChars (dateYear d) ++ '-' :: monthPart⟩
  | none => "NaN-NaN"

/-- Short month names used by the month-label formatting. -/
def monthShortNames : List String :=
  ["Jan", "Feb", "Mar", "Apr", "May", "Jun", "Jul", "Aug", "Sep", "Oct", "Nov", "Dec"]

/-- Model of `getMonthLabel`: re-parse the key, build
`new Date(year, month - 1)` (which rolls over like any `Date` construction),
and format it as in `en-GB` with a short month and numeric year
("Dec 2025"); an unparseable key gives "Invalid Date". -/
def getMonthLabel (monthKey : String) : String :=
  match splitCharList '-' monthKey.data with
  | y :: m :: _ =>
    match jsParseInt ⟨y⟩, jsParseInt ⟨m⟩ with
    | some yi, some mi =>
      match jsMakeDate yi (mi - 1) 1 with
      | some d =>
        (monthShortNames.getD (dateMonth0 d).natAbs "") ++ " " ++ ⟨intChars (dateYear d)⟩
      | none => "Invalid Date"
    | _, _ => "Invalid Date"
  | _ => "Invalid Date"

/-- Model of `calculateMonthlySpending`: group non-payment transactions by
month key, round the zero-floored net totals to 2 decimals, and sort by
month key ascending (`a.month.localeCompare(b.month)`). -/
def calculateMonthlySpending (transactions : List Transaction) : List MonthlySpending :=
  let monthMap := groupNetFold (fun t => getMonthKey t.parsedDate) transactions
  stableSort (fun a b => lexLeChars a.month.data b.month.data)
    (monthMap.map (fun p =>
      { month := p.1
        monthLabel := getMonthLabel p.1
        total := round2 (max 0 p.2.1)
        count := p.2.2
        : MonthlySpending }))

/-- Per-currency foreign-spend entry. -/
structure CurrencySpend where
  currencyCode : String
  currency : String
  totalForeign : ℚ
  totalGBP : ℚ
  transactionCount : Nat
deriving DecidableEq

/-- Foreign-spend summary. -/
structure ForeignSpend where
  totalGBP : ℚ
  totalCommission : ℚ
  transactionCount : Nat
  byCurrency : List CurrencySpend
deriving DecidableEq

/-- Model of `calculateForeignSpend`. -/
def calculateForeignSpend (transactions : List Transaction) : ForeignSpend :=
  let foreignTransactions :=
    transactions.filter (fun t => t.foreignCurrency.isSome && !t.isRefund)
  if foreignTransactions = [] then
    { totalGBP := 0, totalCommission := 0, transactionCount := 0, byCurrency := [] }
  else
    let totalGBP := (foreignTransactions.map (fun t => t.absoluteAmount)).sum
    let totalCommission :=
      (foreignTransactions.map (fun t =>
        match t.foreignCurrency with
        | some fc => fc.commission
        | none => 0)).sum
    let currencyMap :=
      foreignTransactions.foldl
        (fun m t =>
          match t.foreignCurrency with
          | some fc =>
            let existing := (jsMapGet m fc.currencyCode).getD (fc.currency, 0, 0, 0)
            jsMapSet m fc.currencyCode
              (fc.currency, existing.2.1 + fc.foreignAmount,
               existing.2.2.1 + t.absoluteAmount, existing.2.2.2 + 1)
          | none => m)
        []
    let byCurrency :=
      stableSort (fun a b => decide (b.totalGBP ≤ a.totalGBP))
        (currencyMap.map (fun p =>
          { currencyCode := p.1
            currency := p.2.1
            totalForeign := round2 p.2.2.1
            totalGBP := round2 p.2.2.2.1
            transactionCount := p.2.2.2.2
            : CurrencySpend }))
    { totalGBP := round2 totalGBP
      totalCommission := round2 totalCommission
      transactionCount := foreignTransactions.length
      byCurrency := byCurrency }

/-- The per-currency accumulation map built inside `calculateForeignSpend`
(key: currency code; value: last-written currency name, foreign-amount sum,
GBP sum, transaction count). -/
def currencyFold (transactions : List Transaction) :
    List (String × (String × ℚ × ℚ × Nat)) :=
  transactions.foldl
    (fun m t =>
      match t.foreignCurrency with
      | some fc =>
        let existing := (jsMapGet m fc.currencyCode).getD (fc.currency, 0, 0, 0)
        jsMapSet m fc.currencyCode
          (fc.currency, existing.2.1 + fc.foreignAmount,
           existing.2.2.1 + t.absoluteAmount, existing.2.2.2 + 1)
      | none => m)
    []

/-- The date comparator of the date-range sort
(`(a, b) => a.parsedDate.getTime() - b.parsedDate.getTime()`), as a
"precedes" predicate: `cmp(a,b) ≤ 0`.  When either date is invalid the
subtraction is NaN, which ECMAScript `SortCompare` treats as `+0`
(elements compare equal). -/
def dateLe (a b : Transaction) : Bool :=
  match a.parsedDate, b.parsedDate with
  | some x, some y => decide (x ≤ y)
  | _, _ => true

/-- The wrapped-statistics snapshot (`WrappedStats`); the date range is
flattened to its start and end day numbers (an Invalid Date end and a `null`
end are identified — nothing downstream distinguishes them). -/
structure WrappedStats where
  totalSpent : ℚ
  totalRefunds : ℚ
  netSpending : ℚ
  transactionCount : Nat
  averageTransaction : ℚ
  biggestPurchase : Option Transaction
  mostFrequentMerchant : Option MerchantTotal
  topCategories : List CategoryTotal
  topMerchants : List MerchantTotal
  monthlySpending : List MonthlySpending
  uniqueMerchants : Nat
  dateRangeStart : Option Int
  dateRangeEnd : Option Int
  foreignSpend : ForeignSpend
deriving DecidableEq

/-- Model of `calculateWrappedStats`. -/
def calculateWrappedStats (transactions : List Transaction) : WrappedStats :=
  if transactions = [] then
    { totalSpent := 0, totalRefunds := 0, netSpending := 0, transactionCount := 0
      averageTransaction := 0, biggestPurchase := none, mostFrequentMerchant := none
      topCategories := [], topMerchants := [], monthlySpending := [], uniqueMerchants := 0
      dateRangeStart := none, dateRangeEnd := none
      foreignSpend := { totalGBP := 0, totalCommission := 0, transactionCount := 0, byCurrency := [] } }
  else
    let purchaseTransactions := transactions.filter (fun t => !t.isPayment)
    let charges := purchaseTransactions.filter (fun t => !t.isRefund)
    let refunds := purchaseTransactions.filter (fun t => t.isRefund)
    let totalSpent := (charges.map (fun t => t.absoluteAmount)).sum
    let totalRefunds := (refunds.map (fun t => t.absoluteAmount)).sum
    let topCategories := calculateCategoryTotals purchaseTransactions
    let topMerchants := calculateMerchantTotals purchaseTransactions
    let monthlySpending := calculateMonthlySpending purchaseTransactions
    let biggestPurchase :=
      charges.foldl
        (fun mx t =>
          if t.absoluteAmount > (match mx with | some m => m.absoluteAmount | none => 0)
          then some t else mx)
        none
    let mostFrequentMerchant :=
      topMerchants.foldl
        (fun mx m =>
          if m.count > (match mx with | some x => x.count | none => 0) then some m else mx)
        none
    let uniqueMerchants := (purchaseTransactions.map (fun t => t.merchantName)).toFinset.card
    let sortedByDate := stableSort dateLe transactions
    { totalSpent := round2 totalSpent
      totalRefunds := round2 totalRefunds
      netSpending := round2 (totalSpent - totalRefunds)
      transactionCount := purchaseTransactions.length
      averageTransaction :=
        if charges.length > 0 then round2 (totalSpent / (charges.length : ℚ)) else 0
      biggestPurchase := biggestPurchase
      mostFrequentMerchant := mostFrequentMerchant
      topCategories := topCategories.take 10
      topMerchants := topMerchants.take 10
      monthlySpending := monthlySpending
      uniqueMerchants := uniqueMerchants
      dateRangeStart := (sortedByDate.head?).bind (fun t => t.parsedDate)
      dateRangeEnd := (sortedByDate.getLast?).bind (fun t => t.parsedDate)
      foreignSpend := calculateForeignSpend purchaseTransactions }

/-- In-place array sort primitive: returns the sort's result together with
the new state of its receiver (ECMAScript `Array.prototype.sort` sorts the
receiver and returns it). -/
def jsSortInPlace (le : Transaction → Transaction → Bool) (arr : List Transaction) :
    List Transaction × List Transaction :=
  (stableSort le arr, stableSort le arr)

/-- Spread copy `[...arr]`: a fresh array with the same elements. -/
def jsSpreadCopy (arr : List Transaction) : List Transaction := arr

/-- State-passing rendition of `calculateWrappedStats` that makes array
mutation explicit.  Of all array operations the source applies, only `sort`
mutates its receiver, and the source applies it to the spread copy
`[...transactions]` (never to `transactions` itself); all other operations
(`filter`, `map`, `reduce`, `slice`, `new Set`) leave their receiver
unchanged per ECMAScript.  The second component is the state of the caller's
`transactions` array after the call. -/
def calculateWrappedStatsTracked (transactions : List Transaction) :
    WrappedStats × List Transaction :=
  if transactions = [] then
    ({ totalSpent := 0, totalRefunds := 0, netSpending := 0, transactionCount := 0
       averageTransaction := 0, biggestPurchase := none, mostFrequentMerchant := none
       topCategories := [], topMerchants := [], monthlySpending := [], uniqueMerchants := 0
       dateRangeStart := none, dateRangeEnd := none
       foreignSpend := { totalGBP := 0, totalCommission := 0, transactionCount := 0, byCurrency := [] } },
     transactions)
  else
    let purchaseTransactions := transactions.filter (fun t => !t.isPayment)
    let charges := purchaseTransactions.filter (fun t => !t.isRefund)
    let refunds := purchaseTransactions.filter (fun t => t.isRefund)
    let totalSpent := (charges.map (fun t => t.absoluteAmount)).sum
    let totalRefunds := (refunds.map (fun t => t.absoluteAmount)).sum
    let topCategories := calculateCategoryTotals purchaseTransactions
    let topMerchants := calculateMerchantTotals purchaseTransactions
    let monthlySpending := calculateMonthlySpending purchaseTransactions
    let biggestPurchase :=
      charges.foldl
        (fun mx t =>
          if t.absoluteAmount > (match mx with | some m => m.absoluteAmount | none => 0)
          then some t else mx)
        none
    let mostFrequentMerchant :=
      topMerchants.foldl
        (fun mx m =>
          if m.count > (match mx with | some x => x.count | none => 0) then some m else mx)
        none
    let uniqueMerchants := (purchaseTransactions.map (fun t => t.merchantName)).toFinset.card
    let sorted := jsSortInPlace dateLe (jsSpreadCopy transactions)
    let sortedByDate := sorted.1
    ({ totalSpent := round2 totalSpent
       totalRefunds := round2 totalRefunds
       netSpending := round2 (totalSpent - totalRefunds)
       transactionCount := purchaseTransactions.length
       averageTransaction :=
         if charges.length > 0 then round2 (totalSpent / (charges.length : ℚ)) else 0
       biggestPurchase := biggestPurchase
       mostFrequentMerchant := mostFrequentMerchant
       topCategories := topCategories.take 10
       topMerchants := topMerchants.take 10
       monthlySpending := monthlySpending
       uniqueMerchants := uniqueMerchants
       dateRangeStart := (sortedByDate.head?).bind (fun t => t.parsedDate)
       dateRangeEnd := (sortedByDate.getLast?).bind (fun t => t.parsedDate)
       foreignSpend := calculateForeignSpend purchaseTransactions },
     transactions)

/-! ### Specification-side definitions

Definitions in this section express quantities the way the specification
words them, for comparison against the implementation model above. -/

/-- The three-way classification of a transaction, read off the two
classification booleans of the enriched record. -/
inductive TxClass
  | purchase
  | refund
  | payment
deriving DecidableEq

/-- Classification of an enriched transaction: payment dominates, then
refund, else purchase. -/
def txClass (t : Transaction) : TxClass :=
  if t.isPayment then TxClass.payment
  else if t.isRefund then TxClass.refund
  else TxClass.purchase

/-- Rounding as the specification words it: "round half away from zero" on
the cent boundary. -/
def specRoundHalfAwayCents (q : ℚ) : ℚ :=
  (if q < 0 then -(⌊|q| * 100 + 1 / 2⌋ : ℚ) else (⌊q * 100 + 1 / 2⌋ : ℚ)) / 100

/-- Net total of a group: sum of signed net amounts (purchase magnitudes
minus refund magnitudes) of the non-payment transactions with the given
key. -/
def netTotalFor (key : Transaction → String) (k : String) (ts : List Transaction) : ℚ :=
  ((ts.filter (fun t => !t.isPayment && (key t == k))).map signedNetAmount).sum

/-- Raw record count of a group: number of non-payment transactions with the
given key. -/
def countFor (key : Transaction → String) (k : String) (ts : List Transaction) : Nat :=
  (ts.filter (fun t => !t.isPayment && (key t == k))).length

/-- The distinct group keys of the non-payment transactions. -/
def groupKeys (key : Transaction → String) (ts : List Transaction) : Finset String :=
  ((ts.filter (fun t => !t.isPayment)).map key).toFinset

/-- Denominator of the category percentages: the sum of all positive
category net totals. -/
def catDenom (ts : List Transaction) : ℚ :=
  ∑ k ∈ groupKeys (fun t => t.mainCategory) ts,
    max 0 (netTotalFor (fun t => t.mainCategory) k ts)

/-- Trivial foreign-currency extraction used to instantiate the abstracted
extractor in concrete computations. -/
def noExtract : String → Option ForeignCurrencyInfo := fun _ => none

/-- Trivial auto-categorizer used to instantiate the abstracted Dialect B
categorizer in concrete computations. -/
def defaultAutoCat : String → String := fun _ => "Other-Other"

/-- A concrete enriched transaction (consistent with parser output) used in
concrete instantiations: category `cat`, signed amount `amount`, parsed date
`pd`, refund flag `refund`, not a payment. -/
def testTx (cat : String) (amount : ℚ) (pd : Int) (refund : Bool) : Transaction :=
  { date := "01/01/2025"
    description := "SHOP"
    amount := amount
    extendedDetails := ""
    appearsOnStatement := "SHOP"
    address := ""
    townCity := ""
    postcode := ""
    country := ""
    reference := "ref"
    category := cat
    id := "id"
    parsedDate := some pd
    absoluteAmount := |amount|
    isRefund := refund
    isPayment := false
    mainCategory := cat
    subCategory := ""
    merchantName := "SHOP"
    foreignCurrency := none }

/-- A raw Dialect A row with no reference, used to instantiate the
synthesized-identifier fallback. -/
def sampleRawNoRef : AmexTransaction :=
  { date := "30/12/2025"
    description := "TESCO"
    amount := 10
    extendedDetails := ""
    appearsOnStatement := "TESCO"
    address := ""
    townCity := ""
    postcode := ""
    country := ""
    reference := ""
    category := "General Purchases-Fuel" }

/-- A raw Dialect A row whose description matches a payment pattern and
whose amount is negative. -/
def samplePaymentRaw : AmexTransaction :=
  { date := "30/12/2025"
    description := "PAYMENT RECEIVED - THANK YOU"
    amount := -250
    extendedDetails := ""
    appearsOnStatement := "PAYMENT RECEIVED - THANK YOU"
    address := ""
    townCity := ""
    postcode := ""
    country := ""
    reference := "ref1"
    category := "Other" }

/-- CSV-layer output with a recognizable Dialect A header row and no data
rows (for example a file containing only the header). -/
def emptyUkResults : PapaResults :=
  { errors := []
    fields := ["Date", "Description", "Amount", "Extended Details",
               "Appears On Your Statement As", "Address", "Town/City", "Postcode",
               "Country", "Reference", "Category"]
    rows := [] }

/-- The charge (purchase) transactions of a list: payments and refunds
excluded. -/
def chargesOf (ts : List Transaction) : List Transaction :=
  (ts.filter (fun t => !t.isPayment)).filter (fun t => !t.isRefund)

/-- The refund transactions of a list: payments excluded. -/
def refundsOf (ts : List Transaction) : List Transaction :=
  (ts.filter (fun t => !t.isPayment)).filter (fun t => t.isRefund)

/-- Unrounded total charged: the sum of purchase magnitudes. -/
def totalSpentRaw (ts : List Transaction) : ℚ :=
  ((chargesOf ts).map (fun t => t.absoluteAmount)).sum

/-- Unrounded total refunded: the sum of refund magnitudes. -/
def totalRefundsRaw (ts : List Transaction) : ℚ :=
  ((refundsOf ts).map (fun t => t.absoluteAmount)).sum

/-- One-purchase list used to instantiate the category-totals theorem. -/
def testListC5 : List Transaction := [testTx "X" 10 0 false]

/-- The category entry produced for `testListC5`. -/
def catEntryW : CategoryTotal :=
  { category := "X", total := 10, count := 1, percentage := 100 }

/-- One-purchase list (January 2025) used to instantiate the monthly-series
theorem. -/
def testListC6 : List Transaction := [testTx "X" 10 (daysFromCivilMonth1 2025 1) false]

/-- The monthly entry produced for `testListC6`. -/
def monthEntryW : MonthlySpending :=
  { month := "2025-01", monthLabel := "Jan 2025", total := 10, count := 1 }

/-- Charge count of a merchant group: non-payment, non-refund transactions
with the given cleaned merchant name (a refund does not increment the
count). -/
def chargeCountFor (k : String) (ts : List Transaction) : Nat :=
  (ts.filter (fun t => !t.isPayment && (!t.isRefund && (t.merchantName == k)))).length

/-- Whether a transaction carries foreign-currency detail with the given
currency code. -/
def matchesCode (code : String) (t : Transaction) : Bool :=
  match t.foreignCurrency with
  | some fc => fc.currencyCode == code
  | none => false

/-- The foreign-currency amount of a transaction (0 when none). -/
def fcForeignAmount (t : Transaction) : ℚ :=
  match t.foreignCurrency with
  | some fc => fc.foreignAmount
  | none => 0

/-- Per-currency-code sum of foreign-currency amounts over a list. -/
def ccRawForeign (code : String) (l : List Transaction) : ℚ :=
  ((l.filter (matchesCode code)).map fcForeignAmount).sum

/-- Per-currency-code sum of home-currency magnitudes over a list. -/
def ccRawGBP (code : String) (l : List Transaction) : ℚ :=
  ((l.filter (matchesCode code)).map (fun t => t.absoluteAmount)).sum

/-- Per-currency-code transaction count over a list. -/
def ccRawCount (code : String) (l : List Transaction) : Nat :=
  (l.filter (matchesCode code)).length

/-- The foreign-spend transactions of a list: payments excluded, then
restricted to non-refund transactions carrying foreign-currency detail. -/
def foreignTxOf (ts : List Transaction) : List Transaction :=
  (ts.filter (fun t => !t.isPayment)).filter (fun t => t.foreignCurrency.isSome && !t.isRefund)

/-- Unrounded foreign-spend home-currency total. -/
def foreignSumGBP (ts : List Transaction) : ℚ :=
  ((foreignTxOf ts).map (fun t => t.absoluteAmount)).sum

/-- Unrounded foreign-spend commission total. -/
def foreignSumCommission (ts : List Transaction) : ℚ :=
  ((foreignTxOf ts).map (fun t =>
    match t.foreignCurrency with
    | some fc => fc.commission
    | none => 0)).sum

/-- Unrounded per-currency foreign-amount total of the foreign-spend
transactions. -/
def ccForeignSum (code : String) (ts : List Transaction) : ℚ :=
  ccRawForeign code (foreignTxOf ts)

/-- Unrounded per-currency home-currency total of the foreign-spend
transactions. -/
def ccGBPSum (code : String) (ts : List Transaction) : ℚ :=
  ccRawGBP code (foreignTxOf ts)

/-- Little-endian value of a digit list. -/
def digitsVal (l : List Nat) : Nat := l.foldr (fun d r => d + 10 * r) 0

/-! ### Basic lemmas -/

theorem splitCharList_ne_nil (sep : Char) (l : List Char) : splitCharList sep l ≠ [] := by
  induction l with
  | nil => simp [splitCharList]
  | cons c t ih =>
    simp only [splitCharList]
    cases h : splitCharList sep t with
    | nil => simp
    | cons p ps => by_cases hc : c = sep <;> simp [hc]

theorem splitCharList_of_not_mem (sep : Char) (l : List Char) (h : sep ∉ l) :
    splitCharList sep l = [l] := by
  induction l with
  | nil => rfl
  | cons c t ih =>
    have hc : c ≠ sep := fun hcs => h (hcs ▸ List.mem_cons_self c t)
    have ht : sep ∉ t := fun hts => h (List.mem_cons_of_mem c hts)
    simp only [splitCharList, ih ht]
    simp [hc]

theorem splitCharList_append (sep : Char) (a b : List Char) (ha : sep ∉ a) :
    splitCharList sep (a ++ sep :: b) = a :: splitCharList sep b := by
  induction a with
  | nil =>
    simp only [List.nil_append, splitCharList]
    cases h : splitCharList sep b with
    | nil => exact absurd h (splitCharList_ne_nil sep b)
    | cons p ps => simp
  | cons c t ih =>
    have hc : c ≠ sep := fun hcs => ha (hcs ▸ List.mem_cons_self c t)
    have ht : sep ∉ t := fun hts => ha (List.mem_cons_of_mem c hts)
    simp only [List.cons_append, splitCharList, List.append_eq]
    rw [ih ht]
    simp [hc]

theorem natDigitsAux_val : ∀ (fuel n : Nat), n ≤ fuel → digitsVal (natDigitsAux fuel n) = n := by
  intro fuel
  induction fuel with
  | zero =>
    intro n hn
    have : n = 0 := Nat.le_zero.mp hn
    subst this; rfl
  | succ f ih =>
    intro n hn
    match n with
    | 0 => rfl
    | m + 1 =>
      have hlt : (m + 1) / 10 < m + 1 := Nat.div_lt_self (Nat.succ_pos m) (by norm_num)
      have hdiv : (m + 1) / 10 ≤ f := by omega
      show digitsVal (((m + 1) % 10) :: natDigitsAux f ((m + 1) / 10)) = m + 1
      show ((m + 1) % 10) + 10 * digitsVal (natDigitsAux f ((m + 1) / 10)) = m + 1
      rw [ih _ hdiv]
      exact Nat.mod_add_div (m + 1) 10

theorem natDigits_val (n : Nat) : digitsVal (natDigits n) = n :=
  natDigitsAux_val n n le_rfl

theorem natDigitsAux_lt : ∀ (fuel n : Nat), ∀ d ∈ natDigitsAux fuel n, d < 10 := by
  intro fuel
  induction fuel with
  | zero => intro n d hd; simp [natDigitsAux] at hd
  | succ f ih =>
    intro n d hd
    match n with
    | 0 => simp [natDigitsAux] at hd
    | m + 1 =>
      rcases List.mem_cons.mp hd with h | h
      · subst h; exact Nat.mod_lt _ (by norm_num)
      · exact ih _ d h

theorem digitChar_toNat (d : Nat) (h : d < 10) : (digitChar d).toNat = 48 + d := by
  interval_cases d <;> rfl

theorem digitChar_isDigit (d : Nat) (h : d < 10) : isDigitCh (digitChar d) = true := by
  interval_cases d <;> rfl

theorem foldl_digitChars :
    ∀ (l : List Nat) (acc : Nat), (∀ d ∈ l, d < 10) →
      List.foldl (fun a c => a * 10 + (c.toNat - 48)) acc (l.reverse.map digitChar) =
        acc * 10 ^ l.length + digitsVal l := by
  intro l
  induction l with
  | nil => intro acc _; simp [digitsVal]
  | cons d t ih =>
    intro acc h
    rw [List.reverse_cons, List.map_append, List.foldl_append,
      ih acc (fun x hx => h x (List.mem_cons_of_mem _ hx))]
    show (acc * 10 ^ t.length + digitsVal t) * 10 + ((digitChar d).toNat - 48) =
      acc * 10 ^ (d :: t).length + digitsVal (d :: t)
    rw [digitChar_toNat d (h d (List.mem_cons_self _ _))]
    show (acc * 10 ^ t.length + digitsVal t) * 10 + (48 + d - 48) =
      acc * 10 ^ (t.length + 1) + (d + 10 * digitsVal t)
    have : 48 + d - 48 = d := by omega
    rw [this, pow_succ]
    ring

theorem digitsValNat_natChars (n : Nat) : digitsValNat (natChars n) = n := by
  by_cases h : n = 0
  · subst h; rfl
  · simp only [natChars, if_neg h, digitsValNat, natDigits]
    rw [foldl_digitChars _ 0 (fun d hd => natDigitsAux_lt _ _ d hd)]
    simp [natDigitsAux_val n n le_rfl]

theorem natChars_inj {a b : Nat} (h : natChars a = natChars b) : a = b := by
  have h2 := congrArg digitsValNat h
  rwa [digitsValNat_natChars, digitsValNat_natChars] at h2

theorem natChars_all_digit (n : Nat) : ∀ c ∈ natChars n, isDigitCh c = true := by
  intro c hc
  by_cases h : n = 0
  · subst h
    have h0 : natChars 0 = ['0'] := rfl
    rw [h0] at hc
    simp only [List.mem_singleton] at hc
    subst hc; rfl
  · simp only [natChars, if_neg h, List.mem_map] at hc
    obtain ⟨d, hd, rfl⟩ := hc
    exact digitChar_isDigit d (natDigitsAux_lt _ _ d (List.mem_reverse.mp hd))

theorem takeWhile_append_of_all (p : Char → Bool) :
    ∀ (l : List Char) (x : Char) (r : List Char),
      (∀ c ∈ l, p c = true) → p x = false →
      List.takeWhile p (l ++ x :: r) = l := by
  intro l
  induction l with
  | nil => intro x r _ hx; simp [List.takeWhile_cons, hx]
  | cons c t ih =>
    intro x r h hx
    have hc : p c = true := h c (List.mem_cons_self _ _)
    simp only [List.cons_append, List.takeWhile_cons, hc]
    simp [ih x r (fun d hd => h d (List.mem_cons_of_mem _ hd)) hx]

/-! ### Claim C7 -/

/-- C7: for every row in either dialect, the enriched transaction's unsigned
magnitude (`absoluteAmount`) equals the absolute value of its signed
amount. -/
theorem absoluteAmount_eq_abs_amount (extract : String → Option ForeignCurrencyInfo)
    (autoCat : String → String) (raw : AmexTransaction)
    (row : List (String × String)) (i j : Nat) :
    (transformTransaction extract raw i).absoluteAmount =
      |(transformTransaction extract raw i).amount| ∧
    (transformMexicoTransaction autoCat row j).absoluteAmount =
      |(transformMexicoTransaction autoCat row j).amount| :=
  ⟨rfl, rfl⟩

/-! ### Claim C2 -/

/-- C2: classification of every row, in either dialect, is decided in fixed
order — a payment-pattern match gives `payment`, otherwise a negative signed
amount gives `refund`, otherwise `purchase`; the classes are mutually
exclusive, and in particular a negative-amount row matching a payment
pattern is a payment, never a refund. -/
theorem classification_rule (extract : String → Option ForeignCurrencyInfo)
    (autoCat : String → String) (raw : AmexTransaction)
    (row : List (String × String)) (i j : Nat) :
    (txClass (transformTransaction extract raw i) =
      (if isPaymentTransaction raw.description then TxClass.payment
       else if raw.amount < 0 then TxClass.refund else TxClass.purchase)) ∧
    ¬((transformTransaction extract raw i).isPayment = true ∧
      (transformTransaction extract raw i).isRefund = true) ∧
    (raw.amount < 0 → isPaymentTransaction raw.description = true →
      txClass (transformTransaction extract raw i) = TxClass.payment) ∧
    (txClass (transformMexicoTransaction autoCat row j) =
      (if isPaymentTransaction (transformMexicoTransaction autoCat row j).description then
        TxClass.payment
       else if (transformMexicoTransaction autoCat row j).amount < 0 then TxClass.refund
       else TxClass.purchase)) ∧
    ¬((transformMexicoTransaction autoCat row j).isPayment = true ∧
      (transformMexicoTransaction autoCat row j).isRefund = true) ∧
    ((transformMexicoTransaction autoCat row j).amount < 0 →
      isPaymentTransaction (transformMexicoTransaction autoCat row j).description = true →
      txClass (transformMexicoTransaction autoCat row j) = TxClass.payment) := by
  refine ⟨?_, ?_, ?_, ?_, ?_, ?_⟩
  · by_cases hp : isPaymentTransaction raw.description
    · simp [txClass, transformTransaction, hp]
    · by_cases ha : raw.amount < 0 <;> simp [txClass, transformTransaction, hp, ha]
  · by_cases hp : isPaymentTransaction raw.description <;>
      simp [transformTransaction, hp]
  · intro _ hp
    simp [txClass, transformTransaction, hp]
  · by_cases hp : isPaymentTransaction (transformMexicoTransaction autoCat row j).description
    · simp only [txClass]
      simp only [transformMexicoTransaction] at hp ⊢
      simp [hp]
    · by_cases ha : (transformMexicoTransaction autoCat row j).amount < 0 <;>
        · simp only [txClass]
          simp only [transformMexicoTransaction] at hp ha ⊢
          simp [hp, ha]
  · by_cases hp : isPaymentTransaction (transformMexicoTransaction autoCat row j).description <;>
      · simp only [transformMexicoTransaction] at hp ⊢
        simp [hp]
  · intro _ hp
    simp only [txClass]
    simp only [transformMexicoTransaction] at hp ⊢
    simp [hp]

/-- Witness for C2 at a concrete negative-amount payment row. -/
theorem classification_rule_witness :
    (samplePaymentRaw.amount < 0 ∧ isPaymentTransaction samplePaymentRaw.description = true) ∧
    txClass (transformTransaction noExtract samplePaymentRaw 0) = TxClass.payment :=
  ⟨⟨by norm_num [samplePaymentRaw], by decide⟩,
   (classification_rule noExtract defaultAutoCat samplePaymentRaw [] 0 0).2.2.1
     (by norm_num [samplePaymentRaw]) (by decide)⟩

/-! ### Claim C3 -/

/-- C3 counterexample: for a Dialect A label with two hyphens the
sub-category is only the segment between the first and second hyphen, not
everything after the first hyphen. -/
theorem parseSubCategory_two_hyphen_counterexample :
    parseSubCategory "Travel-Air-Fare" = "Air" ∧ ("Air" : String) ≠ "Air-Fare" := by
  constructor
  · rfl
  · decide

/-- C3 (amended): the label is split on `-`; the top category is the first
segment (trimmed, "Other" when blank) and the sub-category is the segment
between the first and second hyphen (trimmed, empty when absent).  For a
label with exactly one hyphen and trim-invariant segments,
`topCategory ++ "-" ++ subCategory` reconstructs the label. -/
theorem category_split_reconstruction (a b : String)
    (ha : '-' ∉ a.data) (hb : '-' ∉ b.data)
    (hta : jsTrimList a.data = a.data) (htb : jsTrimList b.data = b.data)
    (hane : a ≠ "") :
    parseMainCategory (a ++ "-" ++ b) = a ∧ parseSubCategory (a ++ "-" ++ b) = b := by
  have hdata : (a ++ "-" ++ b).data = a.data ++ '-' :: b.data := by
    cases a with
    | mk la =>
      cases b with
      | mk lb =>
        show (la ++ ['-']) ++ lb = la ++ '-' :: lb
        simp
  have hsplit : splitCharList '-' ((a ++ "-" ++ b).data) = [a.data, b.data] := by
    rw [hdata, splitCharList_append '-' a.data b.data ha, splitCharList_of_not_mem '-' b.data hb]
  have hadata : a.data ≠ [] := by
    intro hnil
    apply hane
    cases a with
    | mk l => simp at hnil; simp [hnil]
  constructor
  · simp only [parseMainCategory, hsplit]
    simp only [List.get?]
    rw [hta]
    simp [hadata]
  · simp only [parseSubCategory, hsplit]
    simp only [List.get?]
    rw [htb]

/-- Witness for C3 at the statement's own example label. -/
theorem category_split_reconstruction_witness :
    parseMainCategory ("General Purchases" ++ "-" ++ "Fuel") = "General Purchases" ∧
    parseSubCategory ("General Purchases" ++ "-" ++ "Fuel") = "Fuel" :=
  category_split_reconstruction "General Purchases" "Fuel"
    (by decide) (by decide) (by decide) (by decide) (by decide)

/-! ### Claim C8 -/

/-- C8: two rows of one batch that both lack a reference get synthesized
identifiers `date ++ "-" ++ index`, and distinct source-row indices give
distinct identifiers. -/
theorem generateId_fallback_injective (t1 t2 : AmexTransaction) (i1 i2 : Nat)
    (h1 : t1.reference = "") (h2 : t2.reference = "") (hne : i1 ≠ i2) :
    generateId t1 i1 ≠ generateId t2 i2 := by
  intro h
  apply hne
  simp only [generateId, h1, h2, ne_eq, not_true_eq_false, if_false, ite_false] at h
  have hd : t1.date.data ++ '-' :: natChars i1 = t2.date.data ++ '-' :: natChars i2 := by
    have := congrArg String.data h
    simpa using this
  have hrev := congrArg List.reverse hd
  simp only [List.reverse_append, List.reverse_cons, List.append_assoc,
    List.singleton_append] at hrev
  have ht := congrArg (List.takeWhile isDigitCh) hrev
  rw [takeWhile_append_of_all isDigitCh ((natChars i1).reverse) '-' _
        (fun c hc => natChars_all_digit i1 c (List.mem_reverse.mp hc)) rfl,
      takeWhile_append_of_all isDigitCh ((natChars i2).reverse) '-' _
        (fun c hc => natChars_all_digit i2 c (List.mem_reverse.mp hc)) rfl] at ht
  exact natChars_inj (List.reverse_injective ht)

/-- Witness for C8: the same reference-free row at source indices 0 and 1. -/
theorem generateId_fallback_injective_witness :
    generateId sampleRawNoRef 0 ≠ generateId sampleRawNoRef 1 :=
  generateId_fallback_injective sampleRawNoRef sampleRawNoRef 0 1 rfl rfl (by decide)

/-! ### Claim C9 -/

/-- C9: the aggregation engine does not mutate its input — in the
state-passing rendition, where the one mutating array operation (`sort`) is
applied to the spread copy, the caller's array after the call equals the
input, and the computed snapshot is the same as `calculateWrappedStats`. -/
theorem calculateWrappedStats_preserves_input (ts : List Transaction) :
    (calculateWrappedStatsTracked ts).2 = ts ∧
    (calculateWrappedStatsTracked ts).1 = calculateWrappedStats ts := by
  constructor
  · by_cases h : ts = [] <;> simp [calculateWrappedStatsTracked, h]
  · by_cases h : ts = [] <;>
      simp [calculateWrappedStatsTracked, calculateWrappedStats, h, jsSortInPlace, jsSpreadCopy]

/-! ### Claim C1 -/

theorem parseAmexCSV_quotes_case (extract : String → Option ForeignCurrencyInfo)
    (autoCat : String → String) (results : PapaResults) (e : PapaError) (rest : List PapaError)
    (hq : results.errors.filter (fun x => x.errType = "Quotes") = e :: rest) :
    parseAmexCSV extract autoCat results = Except.error ("CSV parsing error: " ++ e.message) := by
  unfold parseAmexCSV
  split
  · simp_all
  · simp_all

theorem parseAmexCSV_nofmt_case (extract : String → Option ForeignCurrencyInfo)
    (autoCat : String → String) (results : PapaResults)
    (hq : results.errors.filter (fun x => x.errType = "Quotes") = [])
    (hf : detectAmexFormat results.fields = none) :
    parseAmexCSV extract autoCat results =
      Except.error "Unrecognized CSV format. Please upload an Amex UK or Mexico statement." := by
  unfold parseAmexCSV
  split
  · simp_all
  · split <;> simp_all

theorem parseAmexCSV_uk_case (extract : String → Option ForeignCurrencyInfo)
    (autoCat : String → String) (results : PapaResults)
    (hq : results.errors.filter (fun x => x.errType = "Quotes") = [])
    (hf : detectAmexFormat results.fields = some AmexFormat.uk) :
    parseAmexCSV extract autoCat results =
      Except.ok
        { transactions :=
            ((results.rows.enum.map
              (fun p => transformTransaction extract (ukRowToRaw p.2) p.1)).filter retainRow)
          format := AmexFormat.uk
          currency := "GBP"
          currencyLocale := "en-GB" } := by
  unfold parseAmexCSV
  split
  · simp_all
  · split <;> simp_all

theorem parseAmexCSV_mexico_case (extract : String → Option ForeignCurrencyInfo)
    (autoCat : String → String) (results : PapaResults)
    (hq : results.errors.filter (fun x => x.errType = "Quotes") = [])
    (hf : detectAmexFormat results.fields = some AmexFormat.mexico) :
    parseAmexCSV extract autoCat results =
      Except.ok
        { transactions :=
            ((results.rows.enum.map
              (fun p => transformMexicoTransaction autoCat p.2 p.1)).filter retainRow)
          format := AmexFormat.mexico
          currency := "MXN"
          currencyLocale := "es-MX" } := by
  unfold parseAmexCSV
  split
  · simp_all
  · split <;> simp_all

/-- C1 counterexample: with a recognized Dialect A header row and zero data
rows, the parse resolves with an empty transaction list instead of failing
wholesale — the empty-result case is not a rejection at the parse boundary
(the store caller converts it into an error afterwards). -/
theorem parseAmexCSV_empty_result_resolves :
    parseAmexCSV noExtract defaultAutoCat emptyUkResults =
      Except.ok
        { transactions := []
          format := AmexFormat.uk
          currency := "GBP"
          currencyLocale := "en-GB" } := by
  rfl

/-- C1 (amended): the parse rejects iff a critical quoting error was
reported by the CSV layer or dialect detection from the header row fails;
in every other case it resolves with the ordered list of successfully
parsed transactions — which may be empty (the empty-result fatality is
enforced by the store caller, not by the parse operation). -/
theorem parseAmexCSV_error_characterization (extract : String → Option ForeignCurrencyInfo)
    (autoCat : String → String) (results : PapaResults) :
    ((∃ msg, parseAmexCSV extract autoCat results = Except.error msg) ↔
      (results.errors.filter (fun e => e.errType = "Quotes") ≠ [] ∨
       detectAmexFormat results.fields = none)) ∧
    (results.errors.filter (fun e => e.errType = "Quotes") = [] →
      detectAmexFormat results.fields = some AmexFormat.uk →
      parseAmexCSV extract autoCat results =
        Except.ok
          { transactions :=
              ((results.rows.enum.map
                (fun p => transformTransaction extract (ukRowToRaw p.2) p.1)).filter retainRow)
            format := AmexFormat.uk
            currency := "GBP"
            currencyLocale := "en-GB" }) ∧
    (results.errors.filter (fun e => e.errType = "Quotes") = [] →
      detectAmexFormat results.fields = some AmexFormat.mexico →
      parseAmexCSV extract autoCat results =
        Except.ok
          { transactions :=
              ((results.rows.enum.map
                (fun p => transformMexicoTransaction autoCat p.2 p.1)).filter retainRow)
            format := AmexFormat.mexico
            currency := "MXN"
            currencyLocale := "es-MX" }) := by
  refine ⟨⟨?_, ?_⟩, ?_, ?_⟩
  · rintro ⟨msg, hmsg⟩
    by_cases hq : results.errors.filter (fun e => e.errType = "Quotes") = []
    · cases hf : detectAmexFormat results.fields with
      | none => exact Or.inr rfl
      | some fmt =>
        exfalso
        cases fmt
        · rw [parseAmexCSV_uk_case extract autoCat results hq hf] at hmsg
          simp at hmsg
        · rw [parseAmexCSV_mexico_case extract autoCat results hq hf] at hmsg
          simp at hmsg
    · exact Or.inl hq
  · intro h
    by_cases hq : results.errors.filter (fun e => e.errType = "Quotes") = []
    · have hf : detectAmexFormat results.fields = none := by
        rcases h with h | h
        · exact absurd hq h
        · exact h
      exact ⟨_, parseAmexCSV_nofmt_case extract autoCat results hq hf⟩
    · cases hcons : results.errors.filter (fun e => e.errType = "Quotes") with
      | nil => exact absurd hcons hq
      | cons e rest => exact ⟨_, parseAmexCSV_quotes_case extract autoCat results e rest hcons⟩
  · exact parseAmexCSV_uk_case extract autoCat results
  · exact parseAmexCSV_mexico_case extract autoCat results

/-- Witness for C1: a recognized Dialect A header with no rows resolves. -/
theorem parseAmexCSV_error_characterization_witness :
    (emptyUkResults.errors.filter (fun e => e.errType = "Quotes") = [] ∧
     detectAmexFormat emptyUkResults.fields = some AmexFormat.uk) ∧
    parseAmexCSV noExtract defaultAutoCat emptyUkResults =
      Except.ok
        { transactions :=
            ((emptyUkResults.rows.enum.map
              (fun p => transformTransaction noExtract (ukRowToRaw p.2) p.1)).filter retainRow)
          format := AmexFormat.uk
          currency := "GBP"
          currencyLocale := "en-GB" } :=
  ⟨⟨rfl, rfl⟩,
   (parseAmexCSV_error_characterization noExtract defaultAutoCat emptyUkResults).2.1 rfl rfl⟩

/-! ### Claim C4 -/

/-- C4 counterexample: a single refund of 0.125 gives an unrounded net of
−0.125, whose cent fraction is exactly one half; the snapshot rounds it
toward zero to −0.12, while round-half-away-from-zero gives −0.13. -/
theorem netSpending_half_cent_counterexample :
    (calculateWrappedStats [testTx "X" (-(1 / 8)) (daysFromCivilMonth1 2025 1) true]).netSpending =
      -(12 / 100) ∧
    specRoundHalfAwayCents (0 - 1 / 8) = -(13 / 100) ∧
    (-(12 / 100) : ℚ) ≠ -(13 / 100) := by
  have habs : |(1 : ℚ) / 8| = 1 / 8 := abs_of_pos (by norm_num)
  refine ⟨?_, ?_, by norm_num⟩
  · simp only [calculateWrappedStats, testTx, List.filter, round2, jsRound]
    norm_num [habs]
  · simp only [specRoundHalfAwayCents]
    norm_num [habs]


/-! ### Claim C10 -/

/-- C10 counterexample: a Dialect A date with three numeric `/`-fields is
nevertheless dropped when the resulting date falls outside the representable
JS `Date` range — year 500000 exceeds it, so `parseUKDate` yields an Invalid
Date despite all fields being numeric. -/
theorem parseUKDate_out_of_range_counterexample :
    parseUKDate "1/1/500000" = none ∧
    splitCharList '/' "1/1/500000".data = ["1".data, "1".data, "500000".data] ∧
    jsNumberList "1".data = some 1 ∧
    jsNumberList "500000".data = some 500000 := by
  have e1 : jsNumberList "1".data = some ((1 : Nat) : ℚ) := rfl
  have e5 : jsNumberList "500000".data = some ((500000 : Nat) : ℚ) := rfl
  have hsplit : splitCharList '/' "1/1/500000".data = ["1".data, "1".data, "500000".data] := by
    decide
  refine ⟨?_, hsplit, by rw [e1]; norm_num, by rw [e5]; norm_num⟩
  unfold parseUKDate
  rw [hsplit]
  simp only [List.get?, e1, e5, jsNewDate, Option.map_some']
  have ht1 : jsTrunc (((500000 : Nat) : ℚ)) = 500000 := by norm_num [jsTrunc]
  have ht2 : jsTrunc (((1 : Nat) : ℚ) - 1) = 0 := by norm_num [jsTrunc]
  have ht3 : jsTrunc (((1 : Nat) : ℚ)) = 1 := by norm_num [jsTrunc]
  rw [ht1, ht2, ht3]
  decide

/-- C10 (amended): for a Dialect A date string whose three `/`-fields are
numeric, `parseUKDate` builds `new Date(year, month-1, day)`: out-of-range
month or day values roll over into adjacent months and years, and the row is
retained exactly when the rolled-over date lies within the representable JS
`Date` range (at most 100 000 000 days from the epoch); a missing or
non-numeric field, or a rolled date beyond that range, is dropped as
unparseable. -/
theorem parseUKDate_rollover (s : String) (f1 f2 f3 : List Char) (q1 q2 q3 : ℚ)
    (hs : splitCharList '/' s.data = [f1, f2, f3])
    (h1 : jsNumberList f1 = some q1) (h2 : jsNumberList f2 = some q2)
    (h3 : jsNumberList f3 = some q3) :
    parseUKDate s = jsMakeDate (jsTrunc q3) (jsTrunc (q2 - 1)) (jsTrunc q1) ∧
    ((parseUKDate s).isSome ↔
      (rolledDays (jsTrunc q3) (jsTrunc (q2 - 1)) (jsTrunc q1)).natAbs ≤ 100000000) := by
  have hmain : parseUKDate s = jsMakeDate (jsTrunc q3) (jsTrunc (q2 - 1)) (jsTrunc q1) := by
    unfold parseUKDate
    rw [hs]
    simp [h1, h2, h3, jsNewDate]
  refine ⟨hmain, ?_⟩
  rw [hmain]
  unfold jsMakeDate
  by_cases hb : (rolledDays (jsTrunc q3) (jsTrunc (q2 - 1)) (jsTrunc q1)).natAbs ≤ 100000000 <;>
    simp [hb]

/-- Witness for C10 at "32/13/2025": fields out of calendar range roll over
to 1 February 2026 and the row is retained. -/
theorem parseUKDate_rollover_witness :
    (splitCharList '/' "32/13/2025".data = ["32".data, "13".data, "2025".data] ∧
     jsNumberList "32".data = some 32 ∧
     jsNumberList "13".data = some 13 ∧
     jsNumberList "2025".data = some 2025) ∧
    parseUKDate "32/13/2025" = jsMakeDate (jsTrunc 2025) (jsTrunc ((13 : ℚ) - 1)) (jsTrunc 32) ∧
    jsMakeDate (jsTrunc 2025) (jsTrunc ((13 : ℚ) - 1)) (jsTrunc 32) =
      some (rolledDays 2025 12 32) ∧
    civilFromDays (rolledDays 2025 12 32) = (2026, 2, 1) := by
  have e1 : jsNumberList "32".data = some 32 := by
    have h : jsNumberList "32".data = some ((32 : Nat) : ℚ) := rfl
    rw [h]; norm_num
  have e2 : jsNumberList "13".data = some 13 := by
    have h : jsNumberList "13".data = some ((13 : Nat) : ℚ) := rfl
    rw [h]; norm_num
  have e3 : jsNumberList "2025".data = some 2025 := by
    have h : jsNumberList "2025".data = some ((2025 : Nat) : ℚ) := rfl
    rw [h]; norm_num
  have hsplit : splitCharList '/' "32/13/2025".data = ["32".data, "13".data, "2025".data] := by
    decide
  have ht1 : jsTrunc (2025 : ℚ) = 2025 := by norm_num [jsTrunc]
  have ht2 : jsTrunc ((13 : ℚ) - 1) = 12 := by norm_num [jsTrunc]
  have ht3 : jsTrunc (32 : ℚ) = 32 := by norm_num [jsTrunc]
  refine ⟨⟨hsplit, e1, e2, e3⟩,
    (parseUKDate_rollover "32/13/2025" "32".data "13".data "2025".data 32 13 2025
      hsplit e1 e2 e3).1, ?_, by decide⟩
  rw [ht1, ht2, ht3]
  decide

/-! ### Grouping-map and sorting lemmas -/

theorem jsMapGet_set_self {V : Type} (m : List (String × V)) (k : String) (v : V) :
    jsMapGet (jsMapSet m k v) k = some v := by
  induction m with
  | nil => simp [jsMapSet, jsMapGet]
  | cons p m ih =>
    by_cases h : p.1 = k
    · simp [jsMapSet, jsMapGet, h]
    · simp [jsMapSet, jsMapGet, h, ih]

theorem jsMapGet_set_ne {V : Type} (m : List (String × V)) (k k' : String) (v : V)
    (h : k' ≠ k) : jsMapGet (jsMapSet m k v) k' = jsMapGet m k' := by
  induction m with
  | nil =>
    simp only [jsMapSet, jsMapGet]
    rw [if_neg (fun hh : k = k' => h hh.symm)]
  | cons p m ih =>
    by_cases hp : p.1 = k
    · simp only [jsMapSet, if_pos hp, jsMapGet]
      have hk1 : ¬k = k' := fun hh => h hh.symm
      have hk2 : ¬p.1 = k' := fun hh => h (hp.symm.trans hh).symm
      rw [if_neg hk1, if_neg hk2]
    · simp only [jsMapSet, if_neg hp, jsMapGet]
      by_cases hp' : p.1 = k' <;> simp [hp', ih]

theorem mem_keys_jsMapSet {V : Type} (m : List (String × V)) (k k' : String) (v : V) :
    k' ∈ (jsMapSet m k v).map Prod.fst ↔ k' = k ∨ k' ∈ m.map Prod.fst := by
  induction m with
  | nil => simp [jsMapSet]
  | cons p m ih =>
    by_cases hp : p.1 = k
    · subst hp
      have hset : jsMapSet (p :: m) p.1 v = (p.1, v) :: m := by simp [jsMapSet]
      rw [hset]
      simp only [List.map_cons, List.mem_cons]
      tauto
    · have hset : jsMapSet (p :: m) k v = p :: jsMapSet m k v := by simp [jsMapSet, hp]
      rw [hset]
      simp only [List.map_cons, List.mem_cons, ih]
      tauto

theorem keys_nodup_jsMapSet {V : Type} (m : List (String × V)) (k : String) (v : V)
    (h : (m.map Prod.fst).Nodup) : ((jsMapSet m k v).map Prod.fst).Nodup := by
  induction m with
  | nil => simp [jsMapSet]
  | cons p m ih =>
    simp only [List.map_cons, List.nodup_cons] at h
    by_cases hp : p.1 = k
    · subst hp
      have hset : jsMapSet (p :: m) p.1 v = (p.1, v) :: m := by simp [jsMapSet]
      rw [hset]
      simp only [List.map_cons, List.nodup_cons]
      exact ⟨h.1, h.2⟩
    · have hset : jsMapSet (p :: m) k v = p :: jsMapSet m k v := by simp [jsMapSet, hp]
      rw [hset]
      simp only [List.map_cons, List.nodup_cons]
      constructor
      · rw [mem_keys_jsMapSet]
        rintro (hh | hh)
        · exact hp hh
        · exact h.1 hh
      · exact ih h.2

theorem jsMapGet_none_iff {V : Type} (m : List (String × V)) (k : String) :
    jsMapGet m k = none ↔ k ∉ m.map Prod.fst := by
  induction m with
  | nil => simp [jsMapGet]
  | cons p m ih =>
    simp only [jsMapGet, List.map_cons, List.mem_cons]
    by_cases hp : p.1 = k
    · rw [if_pos hp]
      constructor
      · intro h; exact absurd h (Option.some_ne_none _)
      · intro h; exact absurd (Or.inl hp.symm) h
    · rw [if_neg hp, ih]
      constructor
      · intro h
        rintro (h1 | h1)
        · exact hp h1.symm
        · exact h h1
      · intro h h1
        exact h (Or.inr h1)

theorem mem_iff_jsMapGet {V : Type} (m : List (String × V)) (p : String × V)
    (hnd : (m.map Prod.fst).Nodup) : p ∈ m ↔ jsMapGet m p.1 = some p.2 := by
  induction m with
  | nil => simp [jsMapGet]
  | cons q m ih =>
    simp only [List.map_cons, List.nodup_cons] at hnd
    simp only [List.mem_cons, jsMapGet]
    by_cases hq : q.1 = p.1
    · rw [if_pos hq]
      constructor
      · rintro (rfl | h)
        · rfl
        · exfalso
          apply hnd.1
          rw [hq]
          exact List.mem_map_of_mem Prod.fst h
      · intro h
        left
        have hv : q.2 = p.2 := Option.some.inj h
        calc p = (p.1, p.2) := rfl
          _ = (q.1, q.2) := by rw [hq, hv]
          _ = q := rfl
    · rw [if_neg hq, ih hnd.2]
      constructor
      · rintro (rfl | h)
        · exact absurd rfl hq
        · exact h
      · exact Or.inr

theorem insertLe_perm {α : Type} (le : α → α → Bool) (a : α) (l : List α) :
    List.Perm (insertLe le a l) (a :: l) := by
  induction l with
  | nil => exact List.Perm.refl _
  | cons b t ih =>
    simp only [insertLe]
    by_cases h : le a b = true
    · rw [if_pos h]
    · rw [if_neg h]
      exact (ih.cons b).trans (List.Perm.swap a b t)

theorem stableSort_perm {α : Type} (le : α → α → Bool) (l : List α) :
    List.Perm (stableSort le l) l := by
  induction l with
  | nil => exact List.Perm.refl _
  | cons a t ih =>
    simp only [stableSort]
    exact (insertLe_perm le a (stableSort le t)).trans (ih.cons a)

theorem mem_stableSort {α : Type} (le : α → α → Bool) (l : List α) (x : α) :
    x ∈ stableSort le l ↔ x ∈ l :=
  (stableSort_perm le l).mem_iff

theorem mem_insertLe {α : Type} (le : α → α → Bool) (a : α) (l : List α) (x : α) :
    x ∈ insertLe le a l ↔ x = a ∨ x ∈ l := by
  rw [(insertLe_perm le a l).mem_iff]
  simp

theorem insertLe_pairwise {α : Type} (le : α → α → Bool)
    (htrans : ∀ x y z, le x y = true → le y z = true → le x z = true)
    (htot : ∀ x y, le x y = true ∨ le y x = true)
    (a : α) (l : List α) (h : l.Pairwise (fun x y => le x y = true)) :
    (insertLe le a l).Pairwise (fun x y => le x y = true) := by
  induction l with
  | nil => simp [insertLe]
  | cons b t ih =>
    rcases List.pairwise_cons.mp h with ⟨hb, ht⟩
    simp only [insertLe]
    by_cases hab : le a b = true
    · rw [if_pos hab]
      refine List.pairwise_cons.mpr ⟨?_, h⟩
      intro y hy
      rcases List.mem_cons.mp hy with rfl | hy
      · exact hab
      · exact htrans a b y hab (hb y hy)
    · rw [if_neg hab]
      refine List.pairwise_cons.mpr ⟨?_, ih ht⟩
      intro y hy
      rcases (mem_insertLe le a t y).mp hy with rfl | hy
      · rcases htot y b with h' | h'
        · exact absurd h' hab
        · exact h'
      · exact hb y hy

theorem stableSort_pairwise {α : Type} (le : α → α → Bool)
    (htrans : ∀ x y z, le x y = true → le y z = true → le x z = true)
    (htot : ∀ x y, le x y = true ∨ le y x = true) (l : List α) :
    (stableSort le l).Pairwise (fun x y => le x y = true) := by
  induction l with
  | nil => simp [stableSort]
  | cons a t ih =>
    simp only [stableSort]
    exact insertLe_pairwise le htrans htot a _ ih

theorem stableSort_nodup_map {α β : Type} (le : α → α → Bool) (l : List α) (f : α → β)
    (h : (l.map f).Nodup) : ((stableSort le l).map f).Nodup :=
  (((stableSort_perm le l).map f).nodup_iff).mpr h

theorem lexLeChars_total : ∀ l1 l2 : List Char,
    lexLeChars l1 l2 = true ∨ lexLeChars l2 l1 = true := by
  intro l1
  induction l1 with
  | nil => intro l2; left; rfl
  | cons a as ih =>
    intro l2
    cases l2 with
    | nil => right; rfl
    | cons b bs =>
      by_cases hab : a = b
      · subst hab
        simpa [lexLeChars] using ih bs
      · rcases lt_or_gt_of_ne hab with h | h
        · left; simp [lexLeChars, hab, h]
        · right
          have hba : b ≠ a := fun hh => hab hh.symm
          simp [lexLeChars, hba, h]

theorem lexLeChars_trans : ∀ l1 l2 l3 : List Char,
    lexLeChars l1 l2 = true → lexLeChars l2 l3 = true → lexLeChars l1 l3 = true := by
  intro l1
  induction l1 with
  | nil => intro l2 l3 _ _; rfl
  | cons a as ih =>
    intro l2 l3 h12 h23
    cases l2 with
    | nil => simp [lexLeChars] at h12
    | cons b bs =>
      cases l3 with
      | nil => simp [lexLeChars] at h23
      | cons c cs =>
        by_cases hab : a = b
        · subst hab
          by_cases hbc : a = c
          · subst hbc
            simp only [lexLeChars, if_pos rfl] at h12 h23 ⊢
            exact ih bs cs h12 h23
          · simp only [lexLeChars, if_pos rfl] at h12
            simp only [lexLeChars, if_neg hbc] at h23 ⊢
            exact h23
        · simp only [lexLeChars, if_neg hab, decide_eq_true_eq] at h12
          by_cases hbc : b = c
          · subst hbc
            simp [lexLeChars, hab, h12]
          · simp only [lexLeChars, if_neg hbc, decide_eq_true_eq] at h23
            have hac : a < c := lt_trans h12 h23
            simp [lexLeChars, ne_of_lt hac, hac]

theorem round2_nonneg (q : ℚ) (h : 0 ≤ q) : 0 ≤ round2 q := by
  have h1 : (0 : ℤ) ≤ jsRound (q * 100) := by
    have h0 : (0 : ℤ) = ⌊(0 : ℚ) + 1 / 2⌋ := by norm_num
    rw [h0]
    exact Int.floor_le_floor (by linarith)
  have h2 : (0 : ℚ) ≤ (jsRound (q * 100) : ℚ) := by exact_mod_cast h1
  unfold round2
  exact div_nonneg h2 (by norm_num)

theorem round2_zero : round2 0 = 0 := by
  norm_num [round2, jsRound]

theorem groupNetFold_lookup_general (key : Transaction → String) :
    ∀ (ts : List Transaction) (m : List (String × (ℚ × Nat))) (k : String),
      jsMapGet
        (ts.foldl
          (fun m t =>
            if t.isPayment then m
            else
              let existing := (jsMapGet m (key t)).getD (0, 0)
              jsMapSet m (key t) (existing.1 + signedNetAmount t, existing.2 + 1))
          m) k =
      match jsMapGet m k with
      | some v => some (v.1 + netTotalFor key k ts, v.2 + countFor key k ts)
      | none =>
        if countFor key k ts = 0 then none
        else some (netTotalFor key k ts, countFor key k ts) := by
  intro ts
  induction ts with
  | nil =>
    intro m k
    simp only [List.foldl_nil, netTotalFor, countFor, List.filter_nil, List.map_nil,
      List.sum_nil, List.length_nil]
    cases jsMapGet m k with
    | none => simp
    | some v => simp
  | cons t ts ih =>
    intro m k
    rw [List.foldl_cons]
    by_cases hp : t.isPayment = true
    · simp only [hp, if_true]
      rw [ih m k]
      have hpred : (!t.isPayment && (key t == k)) = false := by simp [hp]
      simp only [netTotalFor, countFor, List.filter_cons, hpred]
      simp
    · have hp' : t.isPayment = false := by simpa using hp
      simp only [hp', Bool.false_eq_true, if_false]
      by_cases hk : key t = k
      · subst hk
        rw [ih _ (key t)]
        rw [jsMapGet_set_self]
        have hpred : (!t.isPayment && (key t == key t)) = true := by simp [hp']
        simp only [netTotalFor, countFor, List.filter_cons, hpred, if_true,
          List.map_cons, List.sum_cons, List.length_cons]
        cases hm : jsMapGet m (key t) with
        | some v =>
          simp only [hm, Option.getD_some]
          have h1 : v.1 + signedNetAmount t +
              ((ts.filter (fun x => !x.isPayment && (key x == key t))).map signedNetAmount).sum =
              v.1 + (signedNetAmount t +
              ((ts.filter (fun x => !x.isPayment && (key x == key t))).map signedNetAmount).sum) := by
            ring
          have h2 : v.2 + 1 + (ts.filter (fun x => !x.isPayment && (key x == key t))).length =
              v.2 + ((ts.filter (fun x => !x.isPayment && (key x == key t))).length + 1) := by
            omega
          simp [h1, h2]
        | none =>
          simp only [hm, Option.getD_none]
          have hcnt : (ts.filter (fun x => !x.isPayment && (key x == key t))).length + 1 ≠ 0 := by
            omega
          simp [hcnt]
          omega
      · rw [ih _ k]
        rw [jsMapGet_set_ne _ _ _ _ (fun hh => hk hh.symm)]
        have hpred : (!t.isPayment && (key t == k)) = false := by
          simp [hp', hk]
        simp only [netTotalFor, countFor, List.filter_cons, hpred]
        simp

theorem groupNetFold_lookup (key : Transaction → String) (ts : List Transaction) (k : String) :
    jsMapGet (groupNetFold key ts) k =
      if countFor key k ts = 0 then none
      else some (netTotalFor key k ts, countFor key k ts) := by
  have h := groupNetFold_lookup_general key ts [] k
  simpa [groupNetFold, jsMapGet] using h

theorem groupNetFold_keys_nodup (key : Transaction → String) (ts : List Transaction) :
    ((groupNetFold key ts).map Prod.fst).Nodup := by
  suffices h : ∀ (m : List (String × (ℚ × Nat))), (m.map Prod.fst).Nodup →
      ((ts.foldl
        (fun m t =>
          if t.isPayment then m
          else
            let existing := (jsMapGet m (key t)).getD (0, 0)
            jsMapSet m (key t) (existing.1 + signedNetAmount t, existing.2 + 1))
        m).map Prod.fst).Nodup by
    exact h [] (by simp)
  induction ts with
  | nil => intro m hm; simpa using hm
  | cons t ts ih =>
    intro m hm
    rw [List.foldl_cons]
    by_cases hp : t.isPayment = true
    · simp only [hp, if_true]
      exact ih m hm
    · have hp' : t.isPayment = false := by simpa using hp
      simp only [hp', Bool.false_eq_true, if_false]
      exact ih _ (keys_nodup_jsMapSet m (key t) _ hm)

theorem mem_groupNetFold_keys (key : Transaction → String) (ts : List Transaction) (k : String) :
    k ∈ (groupNetFold key ts).map Prod.fst ↔ countFor key k ts ≠ 0 := by
  rw [← not_iff_not, not_not, ← jsMapGet_none_iff, groupNetFold_lookup]
  by_cases h : countFor key k ts = 0 <;> simp [h]

theorem mem_groupNetFold_iff (key : Transaction → String) (ts : List Transaction)
    (p : String × (ℚ × Nat)) :
    p ∈ groupNetFold key ts ↔
      countFor key p.1 ts ≠ 0 ∧ p.2 = (netTotalFor key p.1 ts, countFor key p.1 ts) := by
  rw [mem_iff_jsMapGet _ _ (groupNetFold_keys_nodup key ts), groupNetFold_lookup]
  by_cases h : countFor key p.1 ts = 0
  · simp [h]
  · simp only [h, if_false, ite_false]
    constructor
    · intro hh
      exact ⟨h, (Option.some.inj hh).symm⟩
    · rintro ⟨_, hh⟩
      rw [hh]

theorem netTotalFor_eq_zero_of_count (key : Transaction → String) (k : String)
    (ts : List Transaction) (h : countFor key k ts = 0) : netTotalFor key k ts = 0 := by
  rw [countFor, List.length_eq_zero] at h
  rw [netTotalFor, h]
  simp

theorem groupNetFold_filter_payment (key : Transaction → String) (ts : List Transaction) :
    groupNetFold key (ts.filter (fun t => !t.isPayment)) = groupNetFold key ts := by
  suffices h : ∀ (m : List (String × (ℚ × Nat))),
      (ts.filter (fun t => !t.isPayment)).foldl
        (fun m t =>
          if t.isPayment then m
          else
            let existing := (jsMapGet m (key t)).getD (0, 0)
            jsMapSet m (key t) (existing.1 + signedNetAmount t, existing.2 + 1)) m =
      ts.foldl
        (fun m t =>
          if t.isPayment then m
          else
            let existing := (jsMapGet m (key t)).getD (0, 0)
            jsMapSet m (key t) (existing.1 + signedNetAmount t, existing.2 + 1)) m by
    exact h []
  induction ts with
  | nil => intro m; rfl
  | cons t ts ih =>
    intro m
    by_cases hp : t.isPayment = true
    · simp only [List.filter_cons, hp, Bool.not_true, Bool.false_eq_true, if_false,
        List.foldl_cons, if_true]
      exact ih m
    · have hp' : t.isPayment = false := by simpa using hp
      simp only [List.filter_cons, hp', Bool.not_false, if_true, List.foldl_cons,
        Bool.false_eq_true, if_false]
      exact ih _

theorem calculateCategoryTotals_filter (ts : List Transaction) :
    calculateCategoryTotals (ts.filter (fun t => !t.isPayment)) = calculateCategoryTotals ts := by
  unfold calculateCategoryTotals
  rw [groupNetFold_filter_payment]

theorem calculateMonthlySpending_filter (ts : List Transaction) :
    calculateMonthlySpending (ts.filter (fun t => !t.isPayment)) =
      calculateMonthlySpending ts := by
  unfold calculateMonthlySpending
  rw [groupNetFold_filter_payment]

theorem round2_max_pos_imp (q : ℚ) (h : 0 < round2 (max 0 q)) : 0 < q := by
  by_contra hq
  push_neg at hq
  rw [max_eq_left hq, round2_zero] at h
  exact lt_irrefl 0 h

theorem groupNetFold_denom (key : Transaction → String) (ts : List Transaction) :
    ((groupNetFold key ts).map (fun p => max 0 p.2.1)).sum =
      ∑ k ∈ groupKeys key ts, max 0 (netTotalFor key k ts) := by
  have h1 : (groupNetFold key ts).map (fun p => max 0 p.2.1) =
      ((groupNetFold key ts).map Prod.fst).map (fun k => max 0 (netTotalFor key k ts)) := by
    rw [List.map_map]
    apply List.map_congr_left
    intro p hp
    obtain ⟨hcnt, hval⟩ := (mem_groupNetFold_iff key ts p).mp hp
    simp [Function.comp, hval]
  rw [h1, ← List.sum_toFinset _ (groupNetFold_keys_nodup key ts)]
  congr 1
  ext k
  rw [List.mem_toFinset, mem_groupNetFold_keys, groupKeys, List.mem_toFinset]
  constructor
  · intro h
    obtain ⟨t, ht⟩ := List.exists_mem_of_length_pos (Nat.pos_of_ne_zero h)
    have ht2 := List.mem_filter.mp ht
    have hand := ht2.2
    simp only [Bool.and_eq_true, beq_iff_eq] at hand
    exact List.mem_map.mpr ⟨t, List.mem_filter.mpr ⟨ht2.1, hand.1⟩, hand.2⟩
  · intro h
    obtain ⟨t, htmem, hkey⟩ := List.mem_map.mp h
    have ht2 := List.mem_filter.mp htmem
    intro hc
    have hmem : t ∈ ts.filter (fun x => !x.isPayment && (key x == k)) :=
      List.mem_filter.mpr ⟨ht2.1, by simp [ht2.2, hkey]⟩
    rw [countFor, List.length_eq_zero] at hc
    rw [hc] at hmem
    exact absurd hmem (List.not_mem_nil t)

/-! ### Claim C5 -/

/-- C5 counterexample: a category whose net total is strictly positive but
below half a cent (here 0.004) is dropped from the category totals, because
the filter tests the 2-decimal-rounded total, not the net total itself. -/
theorem categoryTotals_subcent_counterexample :
    calculateCategoryTotals [testTx "X" (1 / 250) 0 false] = [] ∧
    netTotalFor (fun t => t.mainCategory) "X" [testTx "X" (1 / 250) 0 false] = 1 / 250 ∧
    (0 : ℚ) < 1 / 250 := by
  have habs : |(1 : ℚ) / 250| = 1 / 250 := abs_of_pos (by norm_num)
  have hmax : max (0 : ℚ) (0 + 1 / 250) = 1 / 250 := by
    rw [max_eq_right (by norm_num)]
    norm_num
  refine ⟨?_, ?_, by norm_num⟩
  · simp only [calculateCategoryTotals, groupNetFold, List.foldl_cons, List.foldl_nil,
      testTx, jsMapGet, jsMapSet, signedNetAmount, if_false, Bool.false_eq_true,
      List.map_cons, List.map_nil, List.sum_cons, List.sum_nil, habs, hmax,
      List.filter_cons, List.filter_nil, round2, jsRound]
    norm_num
    rfl
  · simp only [netTotalFor, testTx, List.filter_cons, List.filter_nil]
    norm_num [signedNetAmount, habs]

theorem calculateCategoryTotals_eq (ts : List Transaction) :
    calculateCategoryTotals ts =
      stableSort (fun a b => decide (b.total ≤ a.total))
        (((groupNetFold (fun t => t.mainCategory) ts).map (fun p =>
          ({ category := p.1
             total := round2 (max 0 p.2.1)
             count := p.2.2
             percentage :=
               if ((groupNetFold (fun t => t.mainCategory) ts).map (fun p => max 0 p.2.1)).sum > 0
               then roundPct (max 0 p.2.1 /
                 ((groupNetFold (fun t => t.mainCategory) ts).map (fun p => max 0 p.2.1)).sum)
               else 0 } : CategoryTotal))).filter (fun c => decide (c.total > 0))) := rfl

/-- C5 (amended): the category totals contain exactly those top-level
categories whose zero-floored net total rounds (2 decimals) to a strictly
positive value; each kept entry's total is the rounded net total and its
percentage is the net total divided by the sum of all positive category net
totals, rounded to 1 decimal place (0 when that denominator is 0); entries
are sorted descending by rounded total; and the snapshot exposes only the
first 10 entries. -/
theorem categoryTotals_spec (ts : List Transaction) :
    (∀ cat : String,
      cat ∈ (calculateCategoryTotals ts).map (fun c => c.category) ↔
        0 < round2 (max 0 (netTotalFor (fun t => t.mainCategory) cat ts))) ∧
    (∀ e ∈ calculateCategoryTotals ts,
      e.total = round2 (netTotalFor (fun t => t.mainCategory) e.category ts) ∧
      e.percentage =
        (if 0 < catDenom ts then
          roundPct (netTotalFor (fun t => t.mainCategory) e.category ts / catDenom ts)
        else 0)) ∧
    (calculateCategoryTotals ts).Pairwise (fun a b => b.total ≤ a.total) ∧
    (calculateWrappedStats ts).topCategories = (calculateCategoryTotals ts).take 10 := by
  have hDenom := groupNetFold_denom (fun t => t.mainCategory) ts
  have hEq := calculateCategoryTotals_eq ts
  refine ⟨?_, ?_, ?_, ?_⟩
  · intro cat
    rw [hEq]
    constructor
    · intro h
      obtain ⟨e, he, hecat⟩ := List.mem_map.mp h
      rw [mem_stableSort] at he
      obtain ⟨heL, hepred⟩ := List.mem_filter.mp he
      obtain ⟨p, hpM, hpF⟩ := List.mem_map.mp heL
      obtain ⟨hcnt, hval⟩ := (mem_groupNetFold_iff _ ts p).mp hpM
      have h21 : p.2.1 = netTotalFor (fun t => t.mainCategory) p.1 ts := by rw [hval]
      subst hpF
      have hc : p.1 = cat := hecat
      have hpred' : 0 < round2 (max 0 p.2.1) := by simpa using hepred
      subst hc
      rw [h21] at hpred'
      exact hpred'
    · intro h
      have hpos : 0 < netTotalFor (fun t => t.mainCategory) cat ts := round2_max_pos_imp _ h
      have hcnt : countFor (fun t => t.mainCategory) cat ts ≠ 0 := by
        intro h0
        rw [netTotalFor_eq_zero_of_count _ _ _ h0] at hpos
        exact lt_irrefl 0 hpos
      have hpM : (cat, (netTotalFor (fun t => t.mainCategory) cat ts,
          countFor (fun t => t.mainCategory) cat ts)) ∈
            groupNetFold (fun t => t.mainCategory) ts := by
        rw [mem_groupNetFold_iff]
        exact ⟨hcnt, rfl⟩
      exact List.mem_map.mpr ⟨_,
        (mem_stableSort _ _ _).mpr
          (List.mem_filter.mpr ⟨List.mem_map.mpr ⟨_, hpM, rfl⟩, by simpa using h⟩), rfl⟩
  · intro e he
    rw [hEq] at he
    rw [mem_stableSort] at he
    obtain ⟨heL, hepred⟩ := List.mem_filter.mp he
    obtain ⟨p, hpM, hpF⟩ := List.mem_map.mp heL
    obtain ⟨hcnt, hval⟩ := (mem_groupNetFold_iff _ ts p).mp hpM
    have h21 : p.2.1 = netTotalFor (fun t => t.mainCategory) p.1 ts := by rw [hval]
    subst hpF
    have hepred' : 0 < round2 (max 0 p.2.1) := by simpa using hepred
    have hpos : 0 < netTotalFor (fun t => t.mainCategory) p.1 ts := by
      rw [h21] at hepred'
      exact round2_max_pos_imp _ hepred'
    have hmax : max 0 (netTotalFor (fun t => t.mainCategory) p.1 ts) =
        netTotalFor (fun t => t.mainCategory) p.1 ts := max_eq_right hpos.le
    constructor
    · show round2 (max 0 p.2.1) =
        round2 (netTotalFor (fun t => t.mainCategory) p.1 ts)
      rw [h21, hmax]
    · show (if ((groupNetFold (fun t => t.mainCategory) ts).map (fun p => max 0 p.2.1)).sum > 0
          then roundPct (max 0 p.2.1 /
            ((groupNetFold (fun t => t.mainCategory) ts).map (fun p => max 0 p.2.1)).sum)
          else 0) =
        (if 0 < catDenom ts then
          roundPct (netTotalFor (fun t => t.mainCategory) p.1 ts / catDenom ts)
        else 0)
      rw [h21, hmax, hDenom, catDenom]
  · rw [hEq]
    exact List.Pairwise.imp (fun hh => by simpa using hh)
      (stableSort_pairwise (fun (a b : CategoryTotal) => decide (b.total ≤ a.total))
        (fun x y z hxy hyz => by
          simp only [decide_eq_true_eq] at hxy hyz ⊢
          exact le_trans hyz hxy)
        (fun x y => by
          rcases le_total y.total x.total with h | h
          · exact Or.inl (by simpa)
          · exact Or.inr (by simpa))
        _)
  · by_cases h : ts = []
    · subst h; rfl
    · simp only [calculateWrappedStats, if_neg h]
      show (calculateCategoryTotals (ts.filter (fun t => !t.isPayment))).take 10 =
        (calculateCategoryTotals ts).take 10
      rw [calculateCategoryTotals_filter]

/-- Witness for C5 at a one-purchase list. -/
theorem categoryTotals_spec_witness :
    catEntryW ∈ calculateCategoryTotals testListC5 ∧
    (catEntryW.total =
      round2 (netTotalFor (fun t => t.mainCategory) catEntryW.category testListC5) ∧
     catEntryW.percentage =
      (if 0 < catDenom testListC5 then
        roundPct (netTotalFor (fun t => t.mainCategory) catEntryW.category testListC5 /
          catDenom testListC5)
      else 0)) := by
  have habs : |(10 : ℚ)| = 10 := abs_of_pos (by norm_num)
  have hmax : max (0 : ℚ) (0 + 10) = 10 := by
    rw [max_eq_right (by norm_num)]
    norm_num
  have hE : calculateCategoryTotals testListC5 = [catEntryW] := by
    simp only [calculateCategoryTotals, testListC5, groupNetFold, List.foldl_cons,
      List.foldl_nil, testTx, jsMapGet, jsMapSet, signedNetAmount, Bool.false_eq_true,
      if_false, List.map_cons, List.map_nil, List.sum_cons, List.sum_nil, habs, hmax,
      List.filter_cons, List.filter_nil, round2, jsRound, roundPct, catEntryW]
    norm_num
    rfl
  have hmem : catEntryW ∈ calculateCategoryTotals testListC5 := by
    rw [hE]
    exact List.mem_singleton.mpr rfl
  exact ⟨hmem, (categoryTotals_spec testListC5).2.1 catEntryW hmem⟩

/-! ### Claim C6 -/

theorem countFor_ne_zero_iff (key : Transaction → String) (ts : List Transaction) (k : String) :
    countFor key k ts ≠ 0 ↔ ∃ t ∈ ts, t.isPayment = false ∧ key t = k := by
  constructor
  · intro h
    obtain ⟨t, ht⟩ := List.exists_mem_of_length_pos (Nat.pos_of_ne_zero h)
    have ht2 := List.mem_filter.mp ht
    have hand := ht2.2
    simp only [Bool.and_eq_true, beq_iff_eq, Bool.not_eq_true'] at hand
    exact ⟨t, ht2.1, hand.1, hand.2⟩
  · rintro ⟨t, htmem, hpay, hkey⟩
    intro hc
    have hmem : t ∈ ts.filter (fun x => !x.isPayment && (key x == k)) :=
      List.mem_filter.mpr ⟨htmem, by simp [hpay, hkey]⟩
    rw [countFor, List.length_eq_zero] at hc
    rw [hc] at hmem
    exact absurd hmem (List.not_mem_nil t)

theorem calculateMonthlySpending_eq (ts : List Transaction) :
    calculateMonthlySpending ts =
      stableSort (fun a b => lexLeChars a.month.data b.month.data)
        ((groupNetFold (fun t => getMonthKey t.parsedDate) ts).map (fun p =>
          ({ month := p.1
             monthLabel := getMonthLabel p.1
             total := round2 (max 0 p.2.1)
             count := p.2.2 } : MonthlySpending))) := rfl

/-- C6 counterexample: a month with a strictly positive sub-cent net shows a
total of 0 rather than the net itself, and months in years 999 and 1000 are
emitted in the order Jan 1000 before Jan 999 (string order on the keys), so
the series is not chronologically ascending. -/
theorem monthlySpending_counterexample :
    ((calculateMonthlySpending
        [testTx "X" (1 / 250) (daysFromCivilMonth1 2025 1) false]).map (fun e => e.total)) =
      [0] ∧
    netTotalFor (fun t => getMonthKey t.parsedDate) "2025-01"
      [testTx "X" (1 / 250) (daysFromCivilMonth1 2025 1) false] = 1 / 250 ∧
    (0 : ℚ) < 1 / 250 ∧
    ((calculateMonthlySpending
        [testTx "A" 10 (daysFromCivilMonth1 999 1) false,
         testTx "B" 5 (daysFromCivilMonth1 1000 1) false]).map (fun e => e.month)) =
      ["1000-01", "999-01"] ∧
    dateYear (daysFromCivilMonth1 999 1) = 999 ∧
    dateYear (daysFromCivilMonth1 1000 1) = 1000 := by
  have habs : |(1 : ℚ) / 250| = 1 / 250 := abs_of_pos (by norm_num)
  have hmax : max (0 : ℚ) (0 + 1 / 250) = 1 / 250 := by
    rw [max_eq_right (by norm_num)]
    norm_num
  refine ⟨?_, ?_, by norm_num, by decide, by decide, by decide⟩
  · simp only [calculateMonthlySpending_eq, groupNetFold, List.foldl_cons, List.foldl_nil,
      testTx, jsMapGet, jsMapSet, signedNetAmount, Bool.false_eq_true, if_false,
      List.map_cons, List.map_nil, habs, hmax, round2, jsRound, stableSort, insertLe]
    norm_num
  · have hk : getMonthKey (some (daysFromCivilMonth1 2025 1)) = "2025-01" := by decide
    simp only [netTotalFor, testTx, List.filter_cons, List.filter_nil, hk]
    norm_num [signedNetAmount, habs]

/-- C6 (amended): the monthly series groups non-payment transactions by the
year-month key of the parsed date; each month's total is the net
(purchases minus refunds) floored at zero and rounded to 2 decimals, hence
never negative; the series is sorted ascending by month-key string
(code-unit order — chronological whenever all years have four digits); and
every distinct month with qualifying activity appears exactly once. -/
theorem monthlySpending_spec (ts : List Transaction) :
    (∀ e ∈ calculateMonthlySpending ts,
      e.total = round2 (max 0 (netTotalFor (fun t => getMonthKey t.parsedDate) e.month ts)) ∧
      0 ≤ e.total) ∧
    (calculateMonthlySpending ts).Pairwise
      (fun a b => lexLeChars a.month.data b.month.data = true) ∧
    ((calculateMonthlySpending ts).map (fun e => e.month)).Nodup ∧
    (∀ k : String,
      k ∈ (calculateMonthlySpending ts).map (fun e => e.month) ↔
        ∃ t ∈ ts, t.isPayment = false ∧ getMonthKey t.parsedDate = k) ∧
    (calculateWrappedStats ts).monthlySpending = calculateMonthlySpending ts := by
  have hEq := calculateMonthlySpending_eq ts
  refine ⟨?_, ?_, ?_, ?_, ?_⟩
  · intro e he
    rw [hEq] at he
    rw [mem_stableSort] at he
    obtain ⟨p, hpM, hpF⟩ := List.mem_map.mp he
    obtain ⟨hcnt, hval⟩ := (mem_groupNetFold_iff _ ts p).mp hpM
    have h21 : p.2.1 = netTotalFor (fun t => getMonthKey t.parsedDate) p.1 ts := by rw [hval]
    subst hpF
    constructor
    · show round2 (max 0 p.2.1) =
        round2 (max 0 (netTotalFor (fun t => getMonthKey t.parsedDate) p.1 ts))
      rw [h21]
    · exact round2_nonneg _ (le_max_left 0 p.2.1)
  · rw [hEq]
    exact stableSort_pairwise (fun (a b : MonthlySpending) => lexLeChars a.month.data b.month.data)
      (fun x y z hxy hyz => lexLeChars_trans x.month.data y.month.data z.month.data hxy hyz)
      (fun x y => lexLeChars_total x.month.data y.month.data) _
  · rw [hEq]
    apply stableSort_nodup_map
    rw [List.map_map]
    exact groupNetFold_keys_nodup (fun t => getMonthKey t.parsedDate) ts
  · intro k
    rw [hEq]
    rw [((stableSort_perm (fun (a b : MonthlySpending) => lexLeChars a.month.data b.month.data)
      ((groupNetFold (fun t => getMonthKey t.parsedDate) ts).map (fun p =>
        ({ month := p.1, monthLabel := getMonthLabel p.1, total := round2 (max 0 p.2.1),
           count := p.2.2 } : MonthlySpending)))).map (fun e : MonthlySpending => e.month)).mem_iff]
    rw [List.map_map]
    rw [show ((fun e : MonthlySpending => e.month) ∘ (fun p : String × (ℚ × Nat) =>
      ({ month := p.1, monthLabel := getMonthLabel p.1, total := round2 (max 0 p.2.1),
         count := p.2.2 } : MonthlySpending))) = Prod.fst from rfl]
    rw [mem_groupNetFold_keys]
    exact countFor_ne_zero_iff _ ts k
  · by_cases h : ts = []
    · subst h; rfl
    · simp only [calculateWrappedStats, if_neg h]
      show calculateMonthlySpending (ts.filter (fun t => !t.isPayment)) =
        calculateMonthlySpending ts
      rw [calculateMonthlySpending_filter]

/-- Witness for C6 at a one-purchase list in January 2025. -/
theorem monthlySpending_spec_witness :
    monthEntryW ∈ calculateMonthlySpending testListC6 ∧
    (monthEntryW.total = round2 (max 0
      (netTotalFor (fun t => getMonthKey t.parsedDate) monthEntryW.month testListC6)) ∧
     0 ≤ monthEntryW.total) := by
  have habs : |(10 : ℚ)| = 10 := abs_of_pos (by norm_num)
  have hmax : max (0 : ℚ) (0 + 10) = 10 := by
    rw [max_eq_right (by norm_num)]
    norm_num
  have hE : calculateMonthlySpending testListC6 = [monthEntryW] := by
    simp only [calculateMonthlySpending_eq, testListC6, groupNetFold, List.foldl_cons,
      List.foldl_nil, testTx, jsMapGet, jsMapSet, signedNetAmount, Bool.false_eq_true,
      if_false, List.map_cons, List.map_nil, habs, hmax, round2, jsRound, stableSort,
      insertLe, monthEntryW]
    norm_num
    decide
  have hmem : monthEntryW ∈ calculateMonthlySpending testListC6 := by
    rw [hE]
    exact List.mem_singleton.mpr rfl
  exact ⟨hmem, (monthlySpending_spec testListC6).1 monthEntryW hmem⟩

/-! ### Merchant-map and currency-map characterizations (for claim C4) -/

theorem merchantFold_lookup_general :
    ∀ (ts : List Transaction) (m : List (String × (ℚ × Nat))) (k : String),
      jsMapGet
        (ts.foldl
          (fun m t =>
            if t.isPayment then m
            else
              let existing := (jsMapGet m t.merchantName).getD (0, 0)
              jsMapSet m t.merchantName
                (existing.1 + signedNetAmount t,
                 if t.isRefund then existing.2 else existing.2 + 1))
          m) k =
      match jsMapGet m k with
      | some v =>
        some (v.1 + netTotalFor (fun t => t.merchantName) k ts, v.2 + chargeCountFor k ts)
      | none =>
        if countFor (fun t => t.merchantName) k ts = 0 then none
        else some (netTotalFor (fun t => t.merchantName) k ts, chargeCountFor k ts) := by
  intro ts
  induction ts with
  | nil =>
    intro m k
    simp only [List.foldl_nil, netTotalFor, countFor, chargeCountFor, List.filter_nil,
      List.map_nil, List.sum_nil, List.length_nil]
    cases jsMapGet m k with
    | none => simp
    | some v => simp
  | cons t ts ih =>
    intro m k
    rw [List.foldl_cons]
    by_cases hp : t.isPayment = true
    · simp only [hp, if_true]
      rw [ih m k]
      have hpredN : (!t.isPayment && (t.merchantName == k)) = false := by simp [hp]
      have hpredC : (!t.isPayment && (!t.isRefund && (t.merchantName == k))) = false := by
        simp [hp]
      simp only [netTotalFor, countFor, chargeCountFor, List.filter_cons, hpredN, hpredC]
      simp
    · have hp' : t.isPayment = false := by simpa using hp
      simp only [hp', Bool.false_eq_true, if_false]
      by_cases hk : t.merchantName = k
      · subst hk
        rw [ih _ t.merchantName]
        rw [jsMapGet_set_self]
        have hpredN : (!t.isPayment && (t.merchantName == t.merchantName)) = true := by
          simp [hp']
        by_cases hr : t.isRefund = true
        · have hpredC :
              (!t.isPayment && (!t.isRefund && (t.merchantName == t.merchantName))) = false := by
            simp [hr]
          rw [if_pos hr]
          simp only [netTotalFor, countFor, chargeCountFor, List.filter_cons, hpredN, hpredC,
            if_true, Bool.false_eq_true, if_false, List.map_cons, List.sum_cons,
            List.length_cons]
          cases hm : jsMapGet m t.merchantName with
          | some v =>
            simp only [hm, Option.getD_some, Option.some.injEq, Prod.mk.injEq]
            exact ⟨by ring, trivial⟩
          | none =>
            simp only [hm, Option.getD_none]
            have hcnt :
                (ts.filter (fun x => !x.isPayment && (x.merchantName == t.merchantName))).length
                  + 1 ≠ 0 := by omega
            simp only [hcnt, if_false, ite_false, Option.some.injEq, Prod.mk.injEq]
            exact ⟨by ring, by omega⟩
        · have hr' : t.isRefund = false := by simpa using hr
          have hpredC :
              (!t.isPayment && (!t.isRefund && (t.merchantName == t.merchantName))) = true := by
            simp [hp', hr']
          rw [if_neg hr]
          simp only [netTotalFor, countFor, chargeCountFor, List.filter_cons, hpredN, hpredC,
            if_true, List.map_cons, List.sum_cons, List.length_cons]
          cases hm : jsMapGet m t.merchantName with
          | some v =>
            simp only [hm, Option.getD_some, Option.some.injEq, Prod.mk.injEq]
            exact ⟨by ring, by omega⟩
          | none =>
            simp only [hm, Option.getD_none]
            have hcnt :
                (ts.filter (fun x =>
                  !x.isPayment && (!x.isRefund && (x.merchantName == t.merchantName)))).length
                  + 1 ≠ 0 := by omega
            have hcnt2 :
                (ts.filter (fun x => !x.isPayment && (x.merchantName == t.merchantName))).length
                  + 1 ≠ 0 := by omega
            simp only [hcnt, hcnt2, if_false, ite_false, Option.some.injEq, Prod.mk.injEq]
            exact ⟨by ring, by omega⟩
      · rw [ih _ k]
        rw [jsMapGet_set_ne _ _ _ _ (fun hh => hk hh.symm)]
        have hpredN : (!t.isPayment && (t.merchantName == k)) = false := by simp [hp', hk]
        have hpredC : (!t.isPayment && (!t.isRefund && (t.merchantName == k))) = false := by
          simp [hp', hk]
        simp only [netTotalFor, countFor, chargeCountFor, List.filter_cons, hpredN, hpredC,
          Bool.false_eq_true, if_false]

theorem merchantFold_lookup (ts : List Transaction) (k : String) :
    jsMapGet (merchantFold ts) k =
      if countFor (fun t => t.merchantName) k ts = 0 then none
      else some (netTotalFor (fun t => t.merchantName) k ts, chargeCountFor k ts) := by
  have h := merchantFold_lookup_general ts [] k
  simpa [merchantFold, jsMapGet] using h

theorem merchantFold_keys_nodup (ts : List Transaction) :
    ((merchantFold ts).map Prod.fst).Nodup := by
  suffices h : ∀ (m : List (String × (ℚ × Nat))), (m.map Prod.fst).Nodup →
      ((ts.foldl
        (fun m t =>
          if t.isPayment then m
          else
            let existing := (jsMapGet m t.merchantName).getD (0, 0)
            jsMapSet m t.merchantName
              (existing.1 + signedNetAmount t,
               if t.isRefund then existing.2 else existing.2 + 1))
        m).map Prod.fst).Nodup by
    exact h [] (by simp)
  induction ts with
  | nil => intro m hm; simpa using hm
  | cons t ts ih =>
    intro m hm
    rw [List.foldl_cons]
    by_cases hp : t.isPayment = true
    · simp only [hp, if_true]
      exact ih m hm
    · have hp' : t.isPayment = false := by simpa using hp
      simp only [hp', Bool.false_eq_true, if_false]
      exact ih _ (keys_nodup_jsMapSet m t.merchantName _ hm)

theorem mem_merchantFold_val (ts : List Transaction) (p : String × (ℚ × Nat))
    (hp : p ∈ merchantFold ts) :
    p.2 = (netTotalFor (fun t => t.merchantName) p.1 ts, chargeCountFor p.1 ts) := by
  have h := (mem_iff_jsMapGet _ _ (merchantFold_keys_nodup ts)).mp hp
  rw [merchantFold_lookup] at h
  by_cases hc : countFor (fun t => t.merchantName) p.1 ts = 0
  · rw [if_pos hc] at h
    simp at h
  · rw [if_neg hc] at h
    exact (Option.some.inj h).symm

theorem merchantFold_filter_payment (ts : List Transaction) :
    merchantFold (ts.filter (fun t => !t.isPayment)) = merchantFold ts := by
  suffices h : ∀ (m : List (String × (ℚ × Nat))),
      (ts.filter (fun t => !t.isPayment)).foldl
        (fun m t =>
          if t.isPayment then m
          else
            let existing := (jsMapGet m t.merchantName).getD (0, 0)
            jsMapSet m t.merchantName
              (existing.1 + signedNetAmount t,
               if t.isRefund then existing.2 else existing.2 + 1)) m =
      ts.foldl
        (fun m t =>
          if t.isPayment then m
          else
            let existing := (jsMapGet m t.merchantName).getD (0, 0)
            jsMapSet m t.merchantName
              (existing.1 + signedNetAmount t,
               if t.isRefund then existing.2 else existing.2 + 1)) m by
    exact h []
  induction ts with
  | nil => intro m; rfl
  | cons t ts ih =>
    intro m
    by_cases hp : t.isPayment = true
    · simp only [List.filter_cons, hp, Bool.not_true, Bool.false_eq_true, if_false,
        List.foldl_cons, if_true]
      exact ih m
    · have hp' : t.isPayment = false := by simpa using hp
      simp only [List.filter_cons, hp', Bool.not_false, if_true, List.foldl_cons,
        Bool.false_eq_true, if_false]
      exact ih _

theorem calculateMerchantTotals_filter (ts : List Transaction) :
    calculateMerchantTotals (ts.filter (fun t => !t.isPayment)) = calculateMerchantTotals ts := by
  unfold calculateMerchantTotals
  rw [merchantFold_filter_payment]

theorem calculateMerchantTotals_eq (ts : List Transaction) :
    calculateMerchantTotals ts =
      stableSort (fun a b => decide (b.total ≤ a.total))
        (((merchantFold ts).map (fun p =>
          ({ merchantName := p.1
             total := round2 (max 0 p.2.1)
             count := p.2.2
             averageTransaction :=
               if p.2.2 > 0 then round2 (max 0 p.2.1 / (p.2.2 : ℚ)) else 0 }
            : MerchantTotal))).filter (fun m => decide (m.total > 0))) := rfl

theorem calculateMerchantTotals_fields (ts : List Transaction) (e : MerchantTotal)
    (he : e ∈ calculateMerchantTotals ts) :
    e.total = round2 (max 0 (netTotalFor (fun t => t.merchantName) e.merchantName ts)) ∧
    e.averageTransaction =
      (if 0 < chargeCountFor e.merchantName ts then
        round2 (max 0 (netTotalFor (fun t => t.merchantName) e.merchantName ts) /
          (chargeCountFor e.merchantName ts : ℚ))
      else 0) := by
  rw [calculateMerchantTotals_eq] at he
  rw [mem_stableSort] at he
  obtain ⟨heL, hepred⟩ := List.mem_filter.mp he
  obtain ⟨p, hpM, hpF⟩ := List.mem_map.mp heL
  have hval := mem_merchantFold_val ts p hpM
  have h21 : p.2.1 = netTotalFor (fun t => t.merchantName) p.1 ts := by rw [hval]
  have h22 : p.2.2 = chargeCountFor p.1 ts := by rw [hval]
  subst hpF
  constructor
  · show round2 (max 0 p.2.1) =
      round2 (max 0 (netTotalFor (fun t => t.merchantName) p.1 ts))
    rw [h21]
  · show (if p.2.2 > 0 then round2 (max 0 p.2.1 / (p.2.2 : ℚ)) else 0) =
      (if 0 < chargeCountFor p.1 ts then
        round2 (max 0 (netTotalFor (fun t => t.merchantName) p.1 ts) /
          (chargeCountFor p.1 ts : ℚ))
      else 0)
    rw [h21, h22]

theorem calculateCategoryTotals_fields (ts : List Transaction) (e : CategoryTotal)
    (he : e ∈ calculateCategoryTotals ts) :
    e.total = round2 (max 0 (netTotalFor (fun t => t.mainCategory) e.category ts)) ∧
    e.percentage =
      (if 0 < catDenom ts then
        roundPct (max 0 (netTotalFor (fun t => t.mainCategory) e.category ts) / catDenom ts)
      else 0) := by
  have hDenom := groupNetFold_denom (fun t => t.mainCategory) ts
  rw [calculateCategoryTotals_eq] at he
  rw [mem_stableSort] at he
  obtain ⟨heL, hepred⟩ := List.mem_filter.mp he
  obtain ⟨p, hpM, hpF⟩ := List.mem_map.mp heL
  obtain ⟨hcnt, hval⟩ := (mem_groupNetFold_iff _ ts p).mp hpM
  have h21 : p.2.1 = netTotalFor (fun t => t.mainCategory) p.1 ts := by rw [hval]
  subst hpF
  constructor
  · show round2 (max 0 p.2.1) =
      round2 (max 0 (netTotalFor (fun t => t.mainCategory) p.1 ts))
    rw [h21]
  · show (if ((groupNetFold (fun t => t.mainCategory) ts).map (fun p => max 0 p.2.1)).sum > 0
        then roundPct (max 0 p.2.1 /
          ((groupNetFold (fun t => t.mainCategory) ts).map (fun p => max 0 p.2.1)).sum)
        else 0) =
      (if 0 < catDenom ts then
        roundPct (max 0 (netTotalFor (fun t => t.mainCategory) p.1 ts) / catDenom ts)
      else 0)
    rw [h21, hDenom, catDenom]

theorem calculateMonthlySpending_fields (ts : List Transaction) (e : MonthlySpending)
    (he : e ∈ calculateMonthlySpending ts) :
    e.total = round2 (max 0 (netTotalFor (fun t => getMonthKey t.parsedDate) e.month ts)) := by
  rw [calculateMonthlySpending_eq] at he
  rw [mem_stableSort] at he
  obtain ⟨p, hpM, hpF⟩ := List.mem_map.mp he
  obtain ⟨hcnt, hval⟩ := (mem_groupNetFold_iff _ ts p).mp hpM
  have h21 : p.2.1 = netTotalFor (fun t => getMonthKey t.parsedDate) p.1 ts := by rw [hval]
  subst hpF
  show round2 (max 0 p.2.1) =
    round2 (max 0 (netTotalFor (fun t => getMonthKey t.parsedDate) p.1 ts))
  rw [h21]

theorem currencyFold_lookup_general :
    ∀ (ts : List Transaction) (m : List (String × (String × ℚ × ℚ × Nat))) (k : String),
      (jsMapGet
        (ts.foldl
          (fun m t =>
            match t.foreignCurrency with
            | some fc =>
              let existing := (jsMapGet m fc.currencyCode).getD (fc.currency, 0, 0, 0)
              jsMapSet m fc.currencyCode
                (fc.currency, existing.2.1 + fc.foreignAmount,
                 existing.2.2.1 + t.absoluteAmount, existing.2.2.2 + 1)
            | none => m)
          m) k).map (fun v => (v.2.1, v.2.2.1, v.2.2.2)) =
      match (jsMapGet m k).map (fun v => (v.2.1, v.2.2.1, v.2.2.2)) with
      | some v =>
        some (v.1 + ccRawForeign k ts, v.2.1 + ccRawGBP k ts, v.2.2 + ccRawCount k ts)
      | none =>
        if ccRawCount k ts = 0 then none
        else some (ccRawForeign k ts, ccRawGBP k ts, ccRawCount k ts) := by
  intro ts
  induction ts with
  | nil =>
    intro m k
    simp only [List.foldl_nil, ccRawForeign, ccRawGBP, ccRawCount, List.filter_nil,
      List.map_nil, List.sum_nil, List.length_nil]
    cases jsMapGet m k with
    | none => simp
    | some v => simp
  | cons t ts ih =>
    intro m k
    rw [List.foldl_cons]
    cases hfc : t.foreignCurrency with
    | none =>
      have hmc : matchesCode k t = false := by simp [matchesCode, hfc]
      simp only [hfc]
      rw [ih m k]
      simp only [ccRawForeign, ccRawGBP, ccRawCount, List.filter_cons, hmc,
        Bool.false_eq_true, if_false]
    | some fc =>
      simp only [hfc]
      by_cases hk : fc.currencyCode = k
      · subst hk
        rw [ih _ fc.currencyCode]
        rw [jsMapGet_set_self]
        have hmc : matchesCode fc.currencyCode t = true := by simp [matchesCode, hfc]
        have hfa : fcForeignAmount t = fc.foreignAmount := by simp [fcForeignAmount, hfc]
        simp only [ccRawForeign, ccRawGBP, ccRawCount, List.filter_cons, hmc, if_true,
          List.map_cons, List.sum_cons, List.length_cons, hfa, Option.map_some']
        cases hm : jsMapGet m fc.currencyCode with
        | some v =>
          simp only [hm, Option.getD_some, Option.map_some', Option.some.injEq, Prod.mk.injEq]
          exact ⟨by ring, by ring, by omega⟩
        | none =>
          simp only [hm, Option.getD_none, Option.map_none']
          have hcnt : (ts.filter (matchesCode fc.currencyCode)).length + 1 ≠ 0 := by omega
          simp only [hcnt, if_false, ite_false, Option.some.injEq, Prod.mk.injEq]
          exact ⟨by ring, by ring, by omega⟩
      · rw [ih _ k]
        rw [jsMapGet_set_ne _ _ _ _ (fun hh => hk hh.symm)]
        have hmc : matchesCode k t = false := by simp [matchesCode, hfc, hk]
        simp only [ccRawForeign, ccRawGBP, ccRawCount, List.filter_cons, hmc,
          Bool.false_eq_true, if_false]

theorem currencyFold_lookup (ts : List Transaction) (k : String) :
    (jsMapGet (currencyFold ts) k).map (fun v => (v.2.1, v.2.2.1, v.2.2.2)) =
      if ccRawCount k ts = 0 then none
      else some (ccRawForeign k ts, ccRawGBP k ts, ccRawCount k ts) := by
  have h := currencyFold_lookup_general ts [] k
  simpa [currencyFold, jsMapGet] using h

theorem currencyFold_keys_nodup (ts : List Transaction) :
    ((currencyFold ts).map Prod.fst).Nodup := by
  suffices h : ∀ (m : List (String × (String × ℚ × ℚ × Nat))), (m.map Prod.fst).Nodup →
      ((ts.foldl
        (fun m t =>
          match t.foreignCurrency with
          | some fc =>
            let existing := (jsMapGet m fc.currencyCode).getD (fc.currency, 0, 0, 0)
            jsMapSet m fc.currencyCode
              (fc.currency, existing.2.1 + fc.foreignAmount,
               existing.2.2.1 + t.absoluteAmount, existing.2.2.2 + 1)
          | none => m)
        m).map Prod.fst).Nodup by
    exact h [] (by simp)
  induction ts with
  | nil => intro m hm; simpa using hm
  | cons t ts ih =>
    intro m hm
    rw [List.foldl_cons]
    cases hfc : t.foreignCurrency with
    | none =>
      simp only [hfc]
      exact ih m hm
    | some fc =>
      simp only [hfc]
      exact ih _ (keys_nodup_jsMapSet m fc.currencyCode _ hm)

theorem mem_currencyFold_val (l : List Transaction) (p : String × (String × ℚ × ℚ × Nat))
    (hp : p ∈ currencyFold l) :
    p.2.2.1 = ccRawForeign p.1 l ∧ p.2.2.2.1 = ccRawGBP p.1 l ∧
      p.2.2.2.2 = ccRawCount p.1 l := by
  have h := (mem_iff_jsMapGet _ _ (currencyFold_keys_nodup l)).mp hp
  have h2 := currencyFold_lookup l p.1
  rw [h] at h2
  by_cases hc : ccRawCount p.1 l = 0
  · rw [if_pos hc] at h2
    simp at h2
  · simp only [Option.map_some', if_neg hc, Option.some.injEq, Prod.mk.injEq] at h2
    exact ⟨h2.1, h2.2.1, h2.2.2⟩

theorem calculateForeignSpend_eq (l : List Transaction) :
    calculateForeignSpend l =
      if l.filter (fun t => t.foreignCurrency.isSome && !t.isRefund) = [] then
        { totalGBP := 0, totalCommission := 0, transactionCount := 0, byCurrency := [] }
      else
        { totalGBP :=
            round2 (((l.filter (fun t => t.foreignCurrency.isSome && !t.isRefund)).map
              (fun t => t.absoluteAmount)).sum)
          totalCommission :=
            round2 (((l.filter (fun t => t.foreignCurrency.isSome && !t.isRefund)).map
              (fun t =>
                match t.foreignCurrency with
                | some fc => fc.commission
                | none => 0)).sum)
          transactionCount := (l.filter (fun t => t.foreignCurrency.isSome && !t.isRefund)).length
          byCurrency :=
            stableSort (fun a b => decide (b.totalGBP ≤ a.totalGBP))
              ((currencyFold (l.filter (fun t => t.foreignCurrency.isSome && !t.isRefund))).map
                (fun p =>
                  ({ currencyCode := p.1
                     currency := p.2.1
                     totalForeign := round2 p.2.2.1
                     totalGBP := round2 p.2.2.2.1
                     transactionCount := p.2.2.2.2 } : CurrencySpend))) } := rfl

theorem calculateForeignSpend_totals (l : List Transaction) :
    (calculateForeignSpend l).totalGBP =
      round2 (((l.filter (fun t => t.foreignCurrency.isSome && !t.isRefund)).map
        (fun t => t.absoluteAmount)).sum) ∧
    (calculateForeignSpend l).totalCommission =
      round2 (((l.filter (fun t => t.foreignCurrency.isSome && !t.isRefund)).map
        (fun t =>
          match t.foreignCurrency with
          | some fc => fc.commission
          | none => 0)).sum) := by
  rw [calculateForeignSpend_eq]
  by_cases h : l.filter (fun t => t.foreignCurrency.isSome && !t.isRefund) = []
  · rw [if_pos h, h]
    simp [round2_zero]
  · rw [if_neg h]
    exact ⟨rfl, rfl⟩

theorem calculateForeignSpend_byCurrency_fields (l : List Transaction) (c : CurrencySpend)
    (hc : c ∈ (calculateForeignSpend l).byCurrency) :
    c.totalForeign = round2 (ccRawForeign c.currencyCode
      (l.filter (fun t => t.foreignCurrency.isSome && !t.isRefund))) ∧
    c.totalGBP = round2 (ccRawGBP c.currencyCode
      (l.filter (fun t => t.foreignCurrency.isSome && !t.isRefund))) := by
  rw [calculateForeignSpend_eq] at hc
  by_cases h : l.filter (fun t => t.foreignCurrency.isSome && !t.isRefund) = []
  · rw [if_pos h] at hc
    exact absurd hc (List.not_mem_nil c)
  · rw [if_neg h] at hc
    have hc2 : c ∈
        (currencyFold (l.filter (fun t => t.foreignCurrency.isSome && !t.isRefund))).map
          (fun p =>
            ({ currencyCode := p.1
               currency := p.2.1
               totalForeign := round2 p.2.2.1
               totalGBP := round2 p.2.2.2.1
               transactionCount := p.2.2.2.2 } : CurrencySpend)) :=
      (mem_stableSort _ _ _).mp hc
    obtain ⟨p, hpM, hpF⟩ := List.mem_map.mp hc2
    obtain ⟨h1, h2, h3⟩ := mem_currencyFold_val _ p hpM
    subst hpF
    constructor
    · show round2 p.2.2.1 = round2 (ccRawForeign p.1
        (l.filter (fun t => t.foreignCurrency.isSome && !t.isRefund)))
      rw [h1]
    · show round2 p.2.2.2.1 = round2 (ccRawGBP p.1
        (l.filter (fun t => t.foreignCurrency.isSome && !t.isRefund)))
      rw [h2]

/-- C4 (amended): every currency-valued field of the snapshot is rounded
once at the aggregation-engine boundary — the headline spent/refund totals,
net and average, every category entry total and 1-decimal percentage, every
merchant entry total and average, every monthly entry total, the
foreign-spend GBP and commission totals, and every per-currency foreign and
GBP total — to 2 decimal places (percentages to 1) with `Math.round`, which
rounds halves toward positive infinity; on non-negative values this
coincides with round half away from zero, but a negative net whose cent
fraction is exactly one half rounds toward zero, not away from it. -/
theorem stats_rounding_discipline (ts : List Transaction) :
    (calculateWrappedStats ts).totalSpent = round2 (totalSpentRaw ts) ∧
    (calculateWrappedStats ts).totalRefunds = round2 (totalRefundsRaw ts) ∧
    (calculateWrappedStats ts).netSpending = round2 (totalSpentRaw ts - totalRefundsRaw ts) ∧
    (calculateWrappedStats ts).averageTransaction =
      (if 0 < (chargesOf ts).length then
        round2 (totalSpentRaw ts / ((chargesOf ts).length : ℚ))
      else 0) ∧
    (∀ e ∈ (calculateWrappedStats ts).topCategories,
      e.total = round2 (max 0 (netTotalFor (fun t => t.mainCategory) e.category ts)) ∧
      e.percentage =
        (if 0 < catDenom ts then
          roundPct (max 0 (netTotalFor (fun t => t.mainCategory) e.category ts) / catDenom ts)
        else 0)) ∧
    (∀ e ∈ (calculateWrappedStats ts).topMerchants,
      e.total = round2 (max 0 (netTotalFor (fun t => t.merchantName) e.merchantName ts)) ∧
      e.averageTransaction =
        (if 0 < chargeCountFor e.merchantName ts then
          round2 (max 0 (netTotalFor (fun t => t.merchantName) e.merchantName ts) /
            (chargeCountFor e.merchantName ts : ℚ))
        else 0)) ∧
    (∀ e ∈ (calculateWrappedStats ts).monthlySpending,
      e.total = round2 (max 0 (netTotalFor (fun t => getMonthKey t.parsedDate) e.month ts))) ∧
    ((calculateWrappedStats ts).foreignSpend.totalGBP = round2 (foreignSumGBP ts) ∧
     (calculateWrappedStats ts).foreignSpend.totalCommission =
       round2 (foreignSumCommission ts)) ∧
    (∀ c ∈ (calculateWrappedStats ts).foreignSpend.byCurrency,
      c.totalForeign = round2 (ccForeignSum c.currencyCode ts) ∧
      c.totalGBP = round2 (ccGBPSum c.currencyCode ts)) ∧
    (∀ q : ℚ, 0 ≤ q → round2 q = specRoundHalfAwayCents q) := by
  have hmode : ∀ q : ℚ, 0 ≤ q → round2 q = specRoundHalfAwayCents q := by
    intro q hq
    simp only [round2, jsRound, specRoundHalfAwayCents]
    rw [if_neg (not_lt.mpr hq)]
  by_cases h : ts = []
  · subst h
    refine ⟨?_, ?_, ?_, ?_, ?_, ?_, ?_, ⟨?_, ?_⟩, ?_, hmode⟩
    · show (0 : ℚ) = round2 (totalSpentRaw [])
      rw [show totalSpentRaw [] = 0 from rfl, round2_zero]
    · show (0 : ℚ) = round2 (totalRefundsRaw [])
      rw [show totalRefundsRaw [] = 0 from rfl, round2_zero]
    · show (0 : ℚ) = round2 (totalSpentRaw [] - totalRefundsRaw [])
      rw [show totalSpentRaw [] - totalRefundsRaw [] = 0 by
        norm_num [totalSpentRaw, totalRefundsRaw, chargesOf, refundsOf], round2_zero]
    · show (0 : ℚ) =
        (if 0 < (chargesOf []).length then
          round2 (totalSpentRaw [] / ((chargesOf []).length : ℚ))
        else 0)
      rw [if_neg (by simp [chargesOf])]
    · intro e he
      exact absurd he (List.not_mem_nil e)
    · intro e he
      exact absurd he (List.not_mem_nil e)
    · intro e he
      exact absurd he (List.not_mem_nil e)
    · show (0 : ℚ) = round2 (foreignSumGBP [])
      rw [show foreignSumGBP [] = 0 from rfl, round2_zero]
    · show (0 : ℚ) = round2 (foreignSumCommission [])
      rw [show foreignSumCommission [] = 0 from rfl, round2_zero]
    · intro c hcm
      exact absurd hcm (List.not_mem_nil c)
  · have htc : (calculateWrappedStats ts).topCategories =
        (calculateCategoryTotals ts).take 10 := by
      simp only [calculateWrappedStats, if_neg h]
      show (calculateCategoryTotals (ts.filter (fun t => !t.isPayment))).take 10 =
        (calculateCategoryTotals ts).take 10
      rw [calculateCategoryTotals_filter]
    have htm : (calculateWrappedStats ts).topMerchants =
        (calculateMerchantTotals ts).take 10 := by
      simp only [calculateWrappedStats, if_neg h]
      show (calculateMerchantTotals (ts.filter (fun t => !t.isPayment))).take 10 =
        (calculateMerchantTotals ts).take 10
      rw [calculateMerchantTotals_filter]
    have hms : (calculateWrappedStats ts).monthlySpending = calculateMonthlySpending ts := by
      simp only [calculateWrappedStats, if_neg h]
      show calculateMonthlySpending (ts.filter (fun t => !t.isPayment)) =
        calculateMonthlySpending ts
      rw [calculateMonthlySpending_filter]
    have hfs : (calculateWrappedStats ts).foreignSpend =
        calculateForeignSpend (ts.filter (fun t => !t.isPayment)) := by
      simp only [calculateWrappedStats, if_neg h]
    refine ⟨?_, ?_, ?_, ?_, ?_, ?_, ?_, ⟨?_, ?_⟩, ?_, hmode⟩
    · simp only [calculateWrappedStats, if_neg h]
      rfl
    · simp only [calculateWrappedStats, if_neg h]
      rfl
    · simp only [calculateWrappedStats, if_neg h]
      rfl
    · simp only [calculateWrappedStats, if_neg h]
      rfl
    · intro e he
      rw [htc] at he
      exact calculateCategoryTotals_fields ts e (List.take_subset 10 _ he)
    · intro e he
      rw [htm] at he
      exact calculateMerchantTotals_fields ts e (List.take_subset 10 _ he)
    · intro e he
      rw [hms] at he
      exact calculateMonthlySpending_fields ts e he
    · rw [hfs]
      exact (calculateForeignSpend_totals (ts.filter (fun t => !t.isPayment))).1
    · rw [hfs]
      exact (calculateForeignSpend_totals (ts.filter (fun t => !t.isPayment))).2
    · intro c hcm
      rw [hfs] at hcm
      exact calculateForeignSpend_byCurrency_fields (ts.filter (fun t => !t.isPayment)) c hcm

/-- Witness for C4: the non-negative rounding-mode conjunct applied at 0. -/
theorem stats_rounding_discipline_witness :
    (0 : ℚ) ≤ 0 ∧ round2 0 = specRoundHalfAwayCents 0 :=
  ⟨le_rfl, (stats_rounding_discipline []).2.2.2.2.2.2.2.2.2 0 le_rfl⟩

end AmexWrapped
